import Mathlib

/-!
BufferedSocket (authserver): a shallow embedding.

Source: `src/authserver/BufferedSocket.cpp`.

The socket is embedded as a record holding the receive buffer
(`input_buffer_`), the remote address, the outbound message queue, the
reactor's read/write registration for this handler, and a chronological
trace of every call made to the peer stream, the reactor and the
protocol hooks.  Everything the environment decides (what `peer().send`
and `peer().recv` return, whether a queue insertion or a reactor call
reports `-1`) is an explicit argument of the embedded method.
`size_t` values are naturals reduced modulo `2^64`; `ssize_t` values are
integers.
-/

namespace BufferedSocketModel

/-! ## Machine integers and memory -/

/-- One `char` of a buffer. -/
abbrev Byte := Nat

/-- Number of values of `size_t` (64 bit). -/
def SIZE_MOD : Nat := 18446744073709551616

/-- Smallest `size_t` value whose conversion to `ssize_t` is negative. -/
def SSIZE_LIMIT : Nat := 9223372036854775808

/-- The `errno` value signalling that a non-blocking call would block. -/
def EWOULDBLOCK : Nat := 11

/-- Conversion `size_t → ssize_t`. -/
def to_ssize_t (x : Nat) : Int :=
  if x % SIZE_MOD < SSIZE_LIMIT then ((x % SIZE_MOD : Nat) : Int)
  else ((x % SIZE_MOD : Nat) : Int) - (SIZE_MOD : Int)

/-- Conversion `ssize_t → size_t`. -/
def to_size_t (x : Int) : Nat := (x % (SIZE_MOD : Int)).toNat

/-- Effect of `memcpy(dst, src, n)` on the destination: its first `n` bytes are
replaced by the first `n` bytes found at `src`. -/
def memcpy (dst src : List Byte) (n : Nat) : List Byte :=
  src.take n ++ dst.drop n

/-! ## ACE_Message_Block -/

/-- Modelled from the spec: the ByteCursorBuffer / Fragment behind the
`ACE_Message_Block` type, whose declaration is not part of the source file: a
byte store `base` (`storage`, `bytes`) with a read cursor (`readCursor`,
`sentOffset`) and a write cursor (`writeCursor`), both `size_t` offsets from
the start of the store.  The methods below follow the same data model
(`available`, `freeSpace`, skip, fill, compact), computed in `size_t`
arithmetic. -/
structure ACE_Message_Block where
  base : List Byte
  rd_ptr_ : Nat
  wr_ptr_ : Nat
deriving DecidableEq, Repr

namespace ACE_Message_Block

/-- Fresh block of `n` bytes, as built by `ACE_Message_Block(n)`. -/
def ofSize (n : Nat) : ACE_Message_Block :=
  { base := List.replicate n 0, rd_ptr_ := 0, wr_ptr_ := 0 }

/-- Capacity of the store. -/
def size (mb : ACE_Message_Block) : Nat := mb.base.length

/-- Modelled from the spec: `available = writeCursor - readCursor`, the call
`length()`, the subtraction being done in `size_t` arithmetic. -/
def length (mb : ACE_Message_Block) : Nat :=
  (mb.wr_ptr_ + (SIZE_MOD - mb.rd_ptr_ % SIZE_MOD)) % SIZE_MOD

/-- Modelled from the spec: `freeSpace = capacity - writeCursor`, the call
`space()`, the subtraction being done in `size_t` arithmetic. -/
def space (mb : ACE_Message_Block) : Nat :=
  (mb.size + (SIZE_MOD - mb.wr_ptr_ % SIZE_MOD)) % SIZE_MOD

/-- Modelled from the spec: consume/skip, the call `rd_ptr(n)`: advance the read
cursor by `n`. -/
def rd_ptr (mb : ACE_Message_Block) (n : Nat) : ACE_Message_Block :=
  { mb with rd_ptr_ := (mb.rd_ptr_ + n) % SIZE_MOD }

/-- Modelled from the spec: the cursor part of fill, the call `wr_ptr(n)`:
advance the write cursor by `n`. -/
def wr_ptr (mb : ACE_Message_Block) (n : Nat) : ACE_Message_Block :=
  { mb with wr_ptr_ := (mb.wr_ptr_ + n) % SIZE_MOD }

/-- The memory found at the pointer `rd_ptr()`. -/
def at_rd (mb : ACE_Message_Block) : List Byte := mb.base.drop mb.rd_ptr_

/-- The unread (respectively unsent) bytes: from the read cursor up to the
write cursor. -/
def unread (mb : ACE_Message_Block) : List Byte := mb.at_rd.take mb.length

/-- The store after the transport has written the first `n` bytes of `data` at
the pointer `wr_ptr()`. -/
def fill (mb : ACE_Message_Block) (data : List Byte) (n : Nat) : ACE_Message_Block :=
  { mb with base := mb.base.take mb.wr_ptr_ ++ memcpy (mb.base.drop mb.wr_ptr_) data n }

/-- Modelled from the spec: compact, the call `crunch()`: shift the unread bytes
to offset 0 and reset both cursors accordingly; nothing is done when the read
cursor is already 0, nor when it is past the write cursor. -/
def crunch (mb : ACE_Message_Block) : ACE_Message_Block :=
  if mb.rd_ptr_ ≠ 0 then
    if mb.rd_ptr_ > mb.wr_ptr_ then mb
    else
      { base := memcpy mb.base mb.at_rd mb.length
        rd_ptr_ := 0
        wr_ptr_ := mb.length }
  else mb

/-- Modelled from the spec: the copy of the caller's bytes made on enqueue, the
call `clone()`: a deep copy, cursors included. -/
def clone (mb : ACE_Message_Block) : ACE_Message_Block := mb

/-- Cursor invariant of a block: `0 ≤ rd_ptr_ ≤ wr_ptr_ ≤ size`, the size being
an `ssize_t`-representable amount of memory. -/
def WF (mb : ACE_Message_Block) : Prop :=
  mb.rd_ptr_ ≤ mb.wr_ptr_ ∧ mb.wr_ptr_ ≤ mb.size ∧ mb.size < SSIZE_LIMIT

instance (mb : ACE_Message_Block) : Decidable mb.WF := by
  unfold WF; infer_instance

/-- Cursor invariant of a queued fragment: `rd_ptr_ ≤ wr_ptr_ ≤ size` (the sent
offset does not pass the end of the bytes), the size being a `size_t`. -/
def Cursors (mb : ACE_Message_Block) : Prop :=
  mb.rd_ptr_ ≤ mb.wr_ptr_ ∧ mb.wr_ptr_ ≤ mb.size ∧ mb.size < SIZE_MOD

instance (mb : ACE_Message_Block) : Decidable mb.Cursors := by
  unfold Cursors; infer_instance

/-- A queued fragment within its cursors that still has at least one unsent
byte. -/
def Live (mb : ACE_Message_Block) : Prop := mb.Cursors ∧ mb.length ≠ 0

instance (mb : ACE_Message_Block) : Decidable mb.Live := by
  unfold Live; infer_instance

end ACE_Message_Block

/-! ## Environment: trace of external calls -/

/-- A call made by the socket to the peer stream, the reactor or a protocol hook,
with the value the environment returned where the code reads it. -/
inductive Event where
  | peer_send (bytes : List Byte) (n : Int) (errno : Nat)
  | peer_recv (len : Nat) (n : Int) (errno : Nat)
  | close_reader
  | close_writer
  | schedule_wakeup_WRITE (rc : Int)
  | cancel_wakeup_WRITE
  | remove_handler
  | Base_open (rc : Int)
  | get_remote_addr (rc : Int)
  | Base_handle_close
  | OnAccept
  | OnRead
  | OnClose
deriving DecidableEq, Repr

/-- Bytes a trace event put on the transport: the accepted head of a
`peer().send` offer. -/
def Event.sent : Event → List Byte
  | .peer_send bytes n _ => bytes.take n.toNat
  | _ => []

/-- Whether the event is a call on the peer stream (the Transport). -/
def Event.isTransport : Event → Bool
  | .peer_send _ _ _ => true
  | .peer_recv _ _ _ => true
  | .close_reader => true
  | .close_writer => true
  | _ => false

/-- Whether the event is a `peer().send` call. -/
def Event.isSend : Event → Bool
  | .peer_send _ _ _ => true
  | _ => false

/-! ## The socket -/

/-- State of one `BufferedSocket` together with its reactor registration and
the trace of its external calls. -/
structure BufferedSocket where
  input_buffer_ : ACE_Message_Block
  remote_address_ : String
  msg_queue : List ACE_Message_Block
  READ_MASK : Bool
  WRITE_MASK : Bool
  trace : List Event
deriving DecidableEq, Repr

/-- What `peer().send` returns: the count `n` and the `errno` left behind. -/
structure SendResult where
  n : Int
  errno : Nat
deriving DecidableEq, Repr

/-- What the environment answers during one `send` call: the result of the inline
`peer().send` (read only if the call is made), and the return values of
`enqueue_tail` and `schedule_wakeup`. -/
structure SendEnv where
  res : SendResult
  enqueue_tail : Int
  schedule_wakeup : Int
deriving DecidableEq, Repr

/-- What the environment answers during one `handle_output` call. -/
structure OutputEnv where
  res : SendResult
  dequeue_head : Int
  enqueue_head : Int
deriving DecidableEq, Repr

/-- What the environment answers to the `peer().recv` of one `handle_input`
call: the count `n`, `errno`, and the bytes stored in the buffer when `n > 0`. -/
structure RecvEnv where
  n : Int
  errno : Nat
  data : List Byte
deriving DecidableEq, Repr

namespace BufferedSocket

/-- Append one event to the trace. -/
def log (s : BufferedSocket) (e : Event) : BufferedSocket :=
  { s with trace := s.trace ++ [e] }

/-- The constructor: `input_buffer_(4096), remote_address_("<unknown>")`; the
queue starts empty and the handler is not registered. -/
def ctor : BufferedSocket :=
  { input_buffer_ := ACE_Message_Block.ofSize 4096
    remote_address_ := "<unknown>"
    msg_queue := []
    READ_MASK := false
    WRITE_MASK := false
    trace := [] }

/-- Bytes written to the transport so far. -/
def wire (s : BufferedSocket) : List Byte := (s.trace.map Event.sent).flatten

/-- Unsent remainders of the queued fragments, in queue order. -/
def pending (s : BufferedSocket) : List Byte :=
  (s.msg_queue.map ACE_Message_Block.unread).flatten

/-- Modelled from the spec: `Base::open`, whose body is not part of the source
file: the "store transport" step with which `open` begins.  It reports `rc`
and makes no reactor registration, which the spec places after the address
resolution and the `OnAccept` hook. -/
def Base_open (s : BufferedSocket) (rc : Int) : Int × BufferedSocket :=
  (rc, s.log (Event.Base_open rc))

/-- The method `get_remote_address`. -/
def get_remote_address (s : BufferedSocket) : String := s.remote_address_

/-- The method `recv_len`. -/
def recv_len (s : BufferedSocket) : Nat := s.input_buffer_.length

/-- The method `recv_soft`: returns the result, the caller's buffer afterwards and the
socket afterwards. -/
def recv_soft (s : BufferedSocket) (buf : List Byte) (len : Nat) :
    Bool × List Byte × BufferedSocket :=
  if s.input_buffer_.length < len then (false, buf, s)
  else (true, memcpy buf s.input_buffer_.at_rd len, s)

/-- The method `recv_skip`. -/
def recv_skip (s : BufferedSocket) (len : Nat) : BufferedSocket :=
  { s with input_buffer_ := s.input_buffer_.rd_ptr len }

/-- The method `recv`. -/
def recv (s : BufferedSocket) (buf : List Byte) (len : Nat) :
    Bool × List Byte × BufferedSocket :=
  let r := recv_soft s buf len
  if r.1 then (r.1, r.2.1, recv_skip r.2.2 len)
  else (r.1, r.2.1, r.2.2)

/-- The method `noblk_send`, the transport answering `res` if it is called. -/
def noblk_send (s : BufferedSocket) (message_block : ACE_Message_Block)
    (res : SendResult) : Int × BufferedSocket :=
  let len := message_block.length
  if len = 0 then (-1, s)
  else
    let s1 := s.log (Event.peer_send (message_block.at_rd.take len) res.n res.errno)
    let n := res.n
    if n < 0 then
      if res.errno = EWOULDBLOCK then (0, s1) else (-1, s1)
    else if n = 0 then (-1, s1)
    else (n, s1)

/-- Modelled from the spec: `register_write_interest`, the reactor call
`schedule_wakeup(this, WRITE_MASK)` returning `rc`; the registration takes
effect unless the call reports `-1`. -/
def schedule_wakeup (s : BufferedSocket) (rc : Int) : BufferedSocket :=
  if rc = -1 then s.log (Event.schedule_wakeup_WRITE rc)
  else { s.log (Event.schedule_wakeup_WRITE rc) with WRITE_MASK := true }

/-- Modelled from the spec: `cancel_write_interest`, the reactor call
`cancel_wakeup(this, WRITE_MASK)`. -/
def cancel_wakeup (s : BufferedSocket) : BufferedSocket :=
  { s.log Event.cancel_wakeup_WRITE with WRITE_MASK := false }

/-- The tail of `send` from the comment "Enqueue the message" on. -/
def send_enqueue (s : BufferedSocket) (message_block : ACE_Message_Block)
    (env : SendEnv) : Bool × BufferedSocket :=
  let mb := message_block.clone
  if env.enqueue_tail = -1 then (false, s)
  else
    let s1 := { s with msg_queue := s.msg_queue ++ [mb] }
    (decide (env.schedule_wakeup ≠ -1), schedule_wakeup s1 env.schedule_wakeup)

/-- The method `send`; `buf = none` is the null pointer. -/
def send (s : BufferedSocket) (buf : Option (List Byte)) (len : Nat)
    (env : SendEnv) : Bool × BufferedSocket :=
  match buf with
  | none => (true, s)
  | some b =>
    if len = 0 then (true, s)
    else
      let message_block : ACE_Message_Block :=
        ACE_Message_Block.wr_ptr { base := b.take len, rd_ptr_ := 0, wr_ptr_ := 0 } len
      if s.msg_queue.isEmpty then
        let r := noblk_send s message_block env.res
        let n := r.1
        if n < 0 then (false, r.2)
        else if n = (len : Int) then (true, r.2)
        else send_enqueue r.2 (message_block.rd_ptr (to_size_t n)) env
      else send_enqueue s message_block env

/-- The method `handle_output`. -/
def handle_output (s : BufferedSocket) (env : OutputEnv) : Int × BufferedSocket :=
  match s.msg_queue with
  | [] => (0, cancel_wakeup s)
  | mb :: rest =>
    if env.dequeue_head = -1 then (-1, s)
    else
      let r := noblk_send { s with msg_queue := rest } mb env.res
      let n := r.1
      if n < 0 then (-1, r.2)
      else if n = (mb.length : Int) then (1, r.2)
      else
        let mb1 := mb.rd_ptr (to_size_t n)
        if env.enqueue_head = -1 then (-1, r.2)
        else (0, { r.2 with msg_queue := mb1 :: r.2.msg_queue })

/-- The method `handle_input`; `OnRead` is the protocol hook. -/
def handle_input (s : BufferedSocket) (env : RecvEnv)
    (OnRead : BufferedSocket → BufferedSocket) : Int × BufferedSocket :=
  let space : Int := to_ssize_t s.input_buffer_.space
  let s1 := s.log (Event.peer_recv (to_size_t space) env.n env.errno)
  let n := env.n
  if n < 0 then (if env.errno = EWOULDBLOCK then 0 else -1, s1)
  else if n = 0 then (-1, s1)
  else
    let filled := s1.input_buffer_.fill env.data (to_size_t n)
    let s2 := { s1 with input_buffer_ := filled.wr_ptr (to_size_t n) }
    let s3 := OnRead (s2.log Event.OnRead)
    let s4 := { s3 with input_buffer_ := s3.input_buffer_.crunch }
    (if n = space then 1 else 0, s4)

/-- Modelled from the spec: `Base::handle_close` of the absent base class, the
teardown that deregisters the handler. -/
def Base_handle_close (s : BufferedSocket) : BufferedSocket :=
  { s.log Event.Base_handle_close with READ_MASK := false, WRITE_MASK := false }

/-- The method `handle_close`; `OnClose` is the protocol hook. -/
def handle_close (s : BufferedSocket) (OnClose : BufferedSocket → BufferedSocket) :
    Int × BufferedSocket :=
  (0, Base_handle_close (OnClose (s.log Event.OnClose)))

/-- The method `close_connection`. -/
def close_connection (s : BufferedSocket) : BufferedSocket :=
  let s1 := s.log Event.close_reader
  let s2 := s1.log Event.close_writer
  { s2.log Event.remove_handler with READ_MASK := false, WRITE_MASK := false }

end BufferedSocket

/-! ## Runs of `send` and `handle_output` -/

/-- One call on the send path together with what the environment answers
during it. -/
inductive Call where
  | send (buf : Option (List Byte)) (len : Nat) (env : SendEnv)
  | handle_output (env : OutputEnv)
deriving DecidableEq, Repr

/-- The socket after one call. -/
def Call.step (s : BufferedSocket) : Call → BufferedSocket
  | .send buf len env => (s.send buf len env).2
  | .handle_output env => (s.handle_output env).2

/-- The socket after a sequence of calls, made in list order. -/
def run (s : BufferedSocket) (cs : List Call) : BufferedSocket :=
  cs.foldl Call.step s

/-- The payload a call submits: the `len` bytes at `buf` for a `send`, nothing
for a null buffer or a `handle_output`. -/
def Call.payload : Call → List Byte
  | .send (some b) len _ => b.take len
  | _ => []

/-- Concatenation of the payloads submitted by the calls, in call order. -/
def submitted (cs : List Call) : List Byte := (cs.map Call.payload).flatten

/-- A write attempt of `offered` bytes that the transport answers either with
would-block or by accepting a nonzero number of bytes, at most `offered`. -/
def SendResult.accepts (res : SendResult) (offered : Nat) : Prop :=
  (res.n < 0 ∧ res.errno = EWOULDBLOCK) ∨ (0 < res.n ∧ res.n ≤ (offered : Int))

instance (res : SendResult) (offered : Nat) : Decidable (res.accepts offered) := by
  unfold SendResult.accepts; infer_instance

/-- The arguments of a `send` are well formed: `len` is a `size_t` and a
non-null `buf` points to at least `len` bytes. -/
def sendArgsOk : Option (List Byte) → Nat → Prop
  | none, len => len < SIZE_MOD
  | some b, len => len < SIZE_MOD ∧ len ≤ b.length

instance (buf : Option (List Byte)) (len : Nat) : Decidable (sendArgsOk buf len) := by
  cases buf <;> (unfold sendArgsOk; infer_instance)

/-- The environment of a call made in state `s` is free of failures: the write
attempt, if the call makes one, is answered by would-block or a nonzero
accepted count within the offer, and a queue insertion does not report `-1`. -/
def Call.ok (s : BufferedSocket) : Call → Prop
  | .send buf len env =>
      sendArgsOk buf len ∧
      (s.msg_queue = [] → buf ≠ none → len ≠ 0 → env.res.accepts len) ∧
      env.enqueue_tail ≠ -1
  | .handle_output env =>
      (∀ mb ∈ s.msg_queue.head?, mb.length ≠ 0 → env.res.accepts mb.length) ∧
      env.enqueue_head ≠ -1

instance (s : BufferedSocket) (c : Call) : Decidable (c.ok s) := by
  cases c <;> (unfold Call.ok; infer_instance)

/-- Every call of a run starting in `s` has a failure-free environment. -/
def runOk (s : BufferedSocket) : List Call → Prop
  | [] => True
  | c :: cs => c.ok s ∧ runOk (c.step s) cs

instance runOk.decidable (s : BufferedSocket) (cs : List Call) : Decidable (runOk s cs) := by
  induction cs generalizing s with
  | nil => unfold runOk; infer_instance
  | cons c cs ih => unfold runOk; exact instDecidableAnd

/-- The reactor accepts the wake-up registration a `send` call asks for. -/
def Call.wakes : Call → Prop
  | .send _ _ env => env.schedule_wakeup ≠ -1
  | .handle_output _ => True

instance (c : Call) : Decidable c.wakes := by
  cases c <;> (unfold Call.wakes; infer_instance)

/-- A transport answer accepting `n` bytes. -/
def accepted (n : Int) : SendResult := { n := n, errno := 0 }

/-- A transport answer signalling would-block. -/
def wouldBlock : SendResult := { n := -1, errno := EWOULDBLOCK }

/-- The drain scenario of the spec: a 3000-byte payload sent on an empty queue,
the inline write accepting 1000 bytes, then two `handle_output` calls whose
writes accept 800 and 1200 bytes. -/
def drainScenario : List Call :=
  [ Call.send (some (List.replicate 3000 7)) 3000
      { res := accepted 1000, enqueue_tail := 1, schedule_wakeup := 0 },
    Call.handle_output { res := accepted 800, dequeue_head := 0, enqueue_head := 1 },
    Call.handle_output { res := accepted 1200, dequeue_head := 0, enqueue_head := 1 } ]

/-- A short interleaving: two payloads, the first partly written inline, the
second queued behind it, drained by writes that block once and otherwise
accept part of what is offered. -/
def shortRun : List Call :=
  [ Call.send (some [1, 2, 3]) 3 { res := accepted 1, enqueue_tail := 1, schedule_wakeup := 0 },
    Call.send (some [4, 5]) 2 { res := accepted 2, enqueue_tail := 2, schedule_wakeup := 0 },
    Call.handle_output { res := wouldBlock, dequeue_head := 1, enqueue_head := 2 },
    Call.handle_output { res := accepted 2, dequeue_head := 1, enqueue_head := 2 },
    Call.send none 9 { res := accepted 9, enqueue_tail := 2, schedule_wakeup := 0 },
    Call.handle_output { res := accepted 1, dequeue_head := 0, enqueue_head := 1 },
    Call.handle_output { res := accepted 1, dequeue_head := 0, enqueue_head := 1 } ]

/-- A socket with an 8-byte receive buffer holding the unread bytes `2, 3`,
used to exercise the receive path on a small store. -/
def sample : BufferedSocket :=
  { BufferedSocket.ctor with input_buffer_ := { base := [1, 2, 3, 4, 0, 0, 0, 0], rd_ptr_ := 1, wr_ptr_ := 3 } }

/-! ## Failure classes, hooks and drains -/

/-- A transport answer to a write that `noblk_send` classifies as fatal: a
negative result whose errno is not `EWOULDBLOCK`, or a zero-byte result. -/
def SendResult.fatal (res : SendResult) : Prop :=
  (res.n < 0 ∧ res.errno ≠ EWOULDBLOCK) ∨ res.n = 0

instance (res : SendResult) : Decidable res.fatal := by
  unfold SendResult.fatal; infer_instance

/-- One call an `OnRead` hook makes on the receive path. -/
inductive HookCall where
  | recv_soft (buf : List Byte) (len : Nat)
  | recv (buf : List Byte) (len : Nat)
  | recv_skip (len : Nat)
deriving DecidableEq, Repr

/-- The socket after one call of a hook. -/
def HookCall.run (t : BufferedSocket) : HookCall → BufferedSocket
  | .recv_soft buf len => (t.recv_soft buf len).2.2
  | .recv buf len => (t.recv buf len).2.2
  | .recv_skip len => t.recv_skip len

/-- The hook that makes the calls `cs` in list order and nothing else. -/
def runHook (cs : List HookCall) (t : BufferedSocket) : BufferedSocket :=
  cs.foldl HookCall.run t

/-- The call respects its precondition in state `t`: `recv_skip(len)` is made
with `len ≤ recv_len()`; `recv_soft` and `recv` guard themselves. -/
def HookCall.inBounds (t : BufferedSocket) : HookCall → Prop
  | .recv_skip len => len ≤ t.recv_len
  | _ => True

instance (t : BufferedSocket) (c : HookCall) : Decidable (c.inBounds t) := by
  cases c <;> (unfold HookCall.inBounds; infer_instance)

/-- Every call of the hook, made from state `t` on, respects its precondition. -/
def hookOk (t : BufferedSocket) : List HookCall → Prop
  | [] => True
  | c :: cs => c.inBounds t ∧ hookOk (c.run t) cs

instance hookOk.decidable (t : BufferedSocket) (cs : List HookCall) :
    Decidable (hookOk t cs) := by
  induction cs generalizing t with
  | nil => unfold hookOk; infer_instance
  | cons c cs ih => unfold hookOk; exact instDecidableAnd

/-- The socket as `handle_input` hands it to `OnRead` after a read that
delivered data: the read is logged, the bytes are stored, the write cursor is
advanced and the hook call is logged. -/
def hookEntry (s : BufferedSocket) (env : RecvEnv) : BufferedSocket :=
  let s1 := s.log (Event.peer_recv (to_size_t (to_ssize_t s.input_buffer_.space)) env.n env.errno)
  BufferedSocket.log
    { s1 with input_buffer_ :=
        (s1.input_buffer_.fill env.data (to_size_t env.n)).wr_ptr (to_size_t env.n) }
    Event.OnRead

/-- The arguments of the call are well formed and the transport does not report
more bytes written than the call offers; nothing else is assumed, so fatal
errors and failing queue operations are allowed. -/
def Call.bounded (s : BufferedSocket) : Call → Prop
  | .send buf len env => sendArgsOk buf len ∧ (s.msg_queue = [] → env.res.n ≤ (len : Int))
  | .handle_output env => ∀ mb ∈ s.msg_queue.head?, env.res.n ≤ (mb.length : Int)

instance (s : BufferedSocket) (c : Call) : Decidable (c.bounded s) := by
  cases c <;> (unfold Call.bounded; infer_instance)

/-- Along the run starting in `s` the transport never reports more bytes
written than offered. -/
def runBounded (s : BufferedSocket) : List Call → Prop
  | [] => True
  | c :: cs => c.bounded s ∧ runBounded (c.step s) cs

instance runBounded.decidable (s : BufferedSocket) (cs : List Call) :
    Decidable (runBounded s cs) := by
  induction cs generalizing s with
  | nil => unfold runBounded; infer_instance
  | cons c cs ih => unfold runBounded; exact instDecidableAnd

/-- The socket after the `handle_output` calls answered by `envs`, in order. -/
def drain (s : BufferedSocket) : List OutputEnv → BufferedSocket
  | [] => s
  | e :: es => drain (s.handle_output e).2 es

/-- The results of the `handle_output` calls answered by `envs`, in order. -/
def drainResults (s : BufferedSocket) : List OutputEnv → List Int
  | [] => []
  | e :: es => (s.handle_output e).1 :: drainResults (s.handle_output e).2 es

/-- Along the drain starting in `s` the transport accepts a nonzero chunk within
the offer on every write attempt, and the queue operations succeed. -/
def drainOk (s : BufferedSocket) : List OutputEnv → Prop
  | [] => True
  | e :: es =>
      (e.dequeue_head ≠ -1 ∧ e.enqueue_head ≠ -1 ∧
        ∀ mb ∈ s.msg_queue.head?, 0 < e.res.n ∧ e.res.n ≤ (mb.length : Int)) ∧
      drainOk (s.handle_output e).2 es

instance drainOk.decidable (s : BufferedSocket) (envs : List OutputEnv) :
    Decidable (drainOk s envs) := by
  induction envs generalizing s with
  | nil => unfold drainOk; infer_instance
  | cons e es ih => unfold drainOk; exact instDecidableAnd

/-- A run that leaves one fragment of three unsent bytes queued: the inline
write of the payload `1, 2, 3` would block. -/
def queuedRun : List Call :=
  [ Call.send (some [1, 2, 3]) 3 { res := wouldBlock, enqueue_tail := 1, schedule_wakeup := 0 } ]

/-- Three writes accepting one byte each, the queue operations succeeding. -/
def byteDrain : List OutputEnv :=
  [ { res := accepted 1, dequeue_head := 0, enqueue_head := 1 },
    { res := accepted 1, dequeue_head := 0, enqueue_head := 1 },
    { res := accepted 1, dequeue_head := 0, enqueue_head := 1 } ]

/-- A hook that reads one byte, peeks at five, and skips one. -/
def sampleHook : List HookCall :=
  [ HookCall.recv [0] 1, HookCall.recv_soft [0, 0, 0, 0, 0] 5, HookCall.recv_skip 1 ]

/-- A socket whose 4-byte receive buffer is full of unread bytes. -/
def fullSample : BufferedSocket :=
  { BufferedSocket.ctor with input_buffer_ := { base := [1, 2, 3, 4], rd_ptr_ := 0, wr_ptr_ := 4 } }

/-! ## Cursor arithmetic -/

theorem ACE_Message_Block.length_eq_sub (mb : ACE_Message_Block)
    (h1 : mb.rd_ptr_ ≤ mb.wr_ptr_) (h2 : mb.wr_ptr_ < SIZE_MOD) :
    mb.length = mb.wr_ptr_ - mb.rd_ptr_ := by
  unfold ACE_Message_Block.length
  simp only [SIZE_MOD] at *
  omega

theorem ACE_Message_Block.space_eq_sub (mb : ACE_Message_Block)
    (h1 : mb.wr_ptr_ ≤ mb.size) (h2 : mb.size < SIZE_MOD) :
    mb.space = mb.size - mb.wr_ptr_ := by
  unfold ACE_Message_Block.space
  simp only [SIZE_MOD] at *
  omega

theorem ACE_Message_Block.WF.length_eq {mb : ACE_Message_Block} (h : mb.WF) :
    mb.length = mb.wr_ptr_ - mb.rd_ptr_ := by
  obtain ⟨h1, h2, h3⟩ := h
  apply ACE_Message_Block.length_eq_sub _ h1
  simp only [SIZE_MOD, SSIZE_LIMIT] at *
  omega

theorem ACE_Message_Block.WF.space_eq {mb : ACE_Message_Block} (h : mb.WF) :
    mb.space = mb.size - mb.wr_ptr_ := by
  obtain ⟨h1, h2, h3⟩ := h
  apply ACE_Message_Block.space_eq_sub _ h2
  simp only [SIZE_MOD, SSIZE_LIMIT] at *
  omega

theorem ACE_Message_Block.length_rd_ptr (mb : ACE_Message_Block) (n : Nat)
    (h : n ≤ mb.length) : (mb.rd_ptr n).length = mb.length - n := by
  unfold ACE_Message_Block.length ACE_Message_Block.rd_ptr at *
  simp only [SIZE_MOD] at *
  omega

theorem ACE_Message_Block.WF.at_rd_take {mb : ACE_Message_Block} (h : mb.WF) (n : Nat)
    (hn : n ≤ mb.length) :
    (mb.at_rd.take n).length = n ∧ mb.at_rd.take n = mb.unread.take n := by
  have hl := h.length_eq
  obtain ⟨h1, h2, h3⟩ := h
  unfold ACE_Message_Block.unread ACE_Message_Block.at_rd ACE_Message_Block.size at *
  rw [List.take_take]
  simp [hn]
  omega

/-! ## Conversions and buffer primitives -/

theorem to_ssize_t_of_lt {x : Nat} (h : x < SSIZE_LIMIT) : to_ssize_t x = (x : Int) := by
  unfold to_ssize_t
  simp only [SIZE_MOD, SSIZE_LIMIT] at *
  have : x % 18446744073709551616 = x := Nat.mod_eq_of_lt (by omega)
  rw [this]; simp [h]

theorem to_size_t_of_nonneg {n : Int} (h0 : 0 ≤ n) (h1 : n < (SIZE_MOD : Int)) :
    to_size_t n = n.toNat := by
  unfold to_size_t
  rw [Int.emod_eq_of_lt h0 h1]

theorem take_drop_fill (base data : List Byte) (rd wr : Nat) (h1 : rd ≤ wr)
    (h2 : wr ≤ base.length) :
    ((base.take wr ++ (data.take data.length ++ (base.drop wr).drop data.length)).drop rd).take
        (wr + data.length - rd) = (base.drop rd).take (wr - rd) ++ data := by
  have hX : (base.take wr).length = wr := by simp [h2]
  rw [List.take_of_length_le (le_refl _)]
  rw [List.drop_append_of_le_length (by omega)]
  have hY : ((base.take wr).drop rd).length = wr - rd := by simp [hX]
  have e : wr + data.length - rd = ((base.take wr).drop rd).length + data.length := by omega
  rw [e, List.take_append, List.take_append_of_le_length (le_refl _),
    List.take_of_length_le (le_refl _), List.drop_take]

namespace ACE_Message_Block

theorem WF.rd_ptr_spec {mb : ACE_Message_Block} (h : mb.WF) (k : Nat) (hk : k ≤ mb.length) :
    (mb.rd_ptr k).WF ∧ (mb.rd_ptr k).rd_ptr_ = mb.rd_ptr_ + k ∧
    (mb.rd_ptr k).unread = mb.unread.drop k := by
  have hl := h.length_eq
  have hl2 := mb.length_rd_ptr k hk
  obtain ⟨h1, h2, h3⟩ := h
  have hrd : (mb.rd_ptr k).rd_ptr_ = mb.rd_ptr_ + k := by
    simp only [rd_ptr, size, SIZE_MOD, SSIZE_LIMIT] at *
    omega
  refine ⟨⟨?_, h2, h3⟩, hrd, ?_⟩
  · rw [hrd]; show mb.rd_ptr_ + k ≤ mb.wr_ptr_; omega
  · unfold unread at_rd
    rw [hl2, hrd]
    show List.take (mb.length - k) (List.drop (mb.rd_ptr_ + k) mb.base) = _
    rw [List.drop_take, List.drop_drop]

theorem WF.fill_spec {mb : ACE_Message_Block} (h : mb.WF) (data : List Byte)
    (hfit : data.length ≤ mb.space) :
    ((mb.fill data data.length).wr_ptr data.length).WF ∧
    ((mb.fill data data.length).wr_ptr data.length).size = mb.size ∧
    ((mb.fill data data.length).wr_ptr data.length).rd_ptr_ = mb.rd_ptr_ ∧
    ((mb.fill data data.length).wr_ptr data.length).wr_ptr_ = mb.wr_ptr_ + data.length ∧
    ((mb.fill data data.length).wr_ptr data.length).unread = mb.unread ++ data := by
  have hl := h.length_eq
  have hs := h.space_eq
  obtain ⟨h1, h2, h3⟩ := h
  obtain ⟨base, rd, wr⟩ := mb
  simp only [size] at *
  have hwr : (wr + data.length) % SIZE_MOD = wr + data.length := by
    simp only [SIZE_MOD, SSIZE_LIMIT] at *
    omega
  have hsz : (List.take wr base ++ memcpy (List.drop wr base) data data.length).length =
      base.length := by
    simp only [memcpy, List.length_append, List.length_take, List.length_drop]
    omega
  have hwf : ((ACE_Message_Block.mk base rd wr).fill data data.length |>.wr_ptr data.length).WF := by
    refine ⟨?_, ?_, ?_⟩
    · show rd ≤ (wr + data.length) % SIZE_MOD
      rw [hwr]; omega
    · show (wr + data.length) % SIZE_MOD ≤
        (List.take wr base ++ memcpy (List.drop wr base) data data.length).length
      rw [hwr, hsz]; omega
    · show (List.take wr base ++ memcpy (List.drop wr base) data data.length).length
        < SSIZE_LIMIT
      rw [hsz]; exact h3
  refine ⟨hwf, hsz, rfl, hwr, ?_⟩
  unfold unread at_rd
  rw [hwf.length_eq, hl]
  show List.take ((wr + data.length) % SIZE_MOD - rd) (List.drop rd
    (List.take wr base ++ memcpy (List.drop wr base) data data.length)) = _
  rw [hwr]
  exact take_drop_fill base data rd wr h1 h2

theorem WF.crunch_spec {mb : ACE_Message_Block} (h : mb.WF) :
    mb.crunch.WF ∧ mb.crunch.rd_ptr_ = 0 ∧ mb.crunch.size = mb.size ∧
    mb.crunch.length = mb.length ∧ mb.crunch.unread = mb.unread := by
  have hl := h.length_eq
  have hwf := h
  obtain ⟨h1, h2, h3⟩ := h
  unfold crunch
  by_cases h0 : mb.rd_ptr_ = 0
  · rw [if_neg (by simpa using h0)]
    exact ⟨hwf, h0, rfl, rfl, rfl⟩
  · have hgt : ¬ mb.rd_ptr_ > mb.wr_ptr_ := by omega
    rw [if_pos h0, if_neg hgt]
    have hlen : (List.take mb.length mb.at_rd).length = mb.length := by
      simp only [at_rd, List.length_take, List.length_drop, size] at *
      omega
    have hsz : (memcpy mb.base mb.at_rd mb.length).length = mb.base.length := by
      simp only [memcpy, List.length_append, hlen, List.length_drop, size] at *
      omega
    have hlt : mb.length < SIZE_MOD := Nat.mod_lt _ (by decide)
    have hl2 : (ACE_Message_Block.mk (memcpy mb.base mb.at_rd mb.length) 0 mb.length).length
        = mb.length := by
      rw [length_eq_sub _ (Nat.zero_le _) hlt]
      rfl
    refine ⟨⟨Nat.zero_le _, ?_, ?_⟩, rfl, hsz, hl2, ?_⟩
    · show mb.length ≤ (memcpy mb.base mb.at_rd mb.length).length
      rw [hsz]; simp only [size] at *; omega
    · show (memcpy mb.base mb.at_rd mb.length).length < SSIZE_LIMIT
      rw [hsz]; exact h3
    · unfold unread
      rw [hl2]
      show List.take mb.length (List.drop 0 (memcpy mb.base mb.at_rd mb.length)) = _
      simp only [List.drop_zero, memcpy]
      rw [List.take_append_of_le_length (by omega)]
      rw [List.take_take]
      simp

end ACE_Message_Block

theorem ofSize_facts (n : Nat) (h : n < SSIZE_LIMIT) :
    (ACE_Message_Block.ofSize n).WF ∧ (ACE_Message_Block.ofSize n).size = n ∧
    (ACE_Message_Block.ofSize n).space = n ∧ (ACE_Message_Block.ofSize n).length = 0 := by
  have hsz : (ACE_Message_Block.ofSize n).size = n := by
    simp only [ACE_Message_Block.ofSize, ACE_Message_Block.size, List.length_replicate]
  have hwf : (ACE_Message_Block.ofSize n).WF := by
    refine ⟨Nat.le_refl _, Nat.zero_le _, ?_⟩
    rw [hsz]; exact h
  refine ⟨hwf, hsz, ?_, ?_⟩
  · rw [hwf.space_eq, hsz]; rfl
  · rw [hwf.length_eq]; rfl

/-! ## Queued fragments -/

namespace ACE_Message_Block

theorem Cursors.length_eq_cursors {mb : ACE_Message_Block} (h : mb.Cursors) :
    mb.length = mb.wr_ptr_ - mb.rd_ptr_ := by
  obtain ⟨h1, h2, h3⟩ := h
  exact length_eq_sub _ h1 (by omega)

theorem Cursors.rd_ptr_cursors {mb : ACE_Message_Block} (h : mb.Cursors) (k : Nat)
    (hk : k ≤ mb.length) :
    (mb.rd_ptr k).Cursors ∧ (mb.rd_ptr k).rd_ptr_ = mb.rd_ptr_ + k ∧
    (mb.rd_ptr k).length = mb.length - k ∧
    (mb.rd_ptr k).unread = mb.unread.drop k ∧
    mb.at_rd.take k = mb.unread.take k := by
  have hl := h.length_eq_cursors
  have hl2 := mb.length_rd_ptr k hk
  obtain ⟨h1, h2, h3⟩ := h
  have hrd : (mb.rd_ptr k).rd_ptr_ = mb.rd_ptr_ + k := by
    simp only [rd_ptr, size, SIZE_MOD] at *
    omega
  refine ⟨⟨?_, h2, h3⟩, hrd, hl2, ?_, ?_⟩
  · rw [hrd]; show mb.rd_ptr_ + k ≤ mb.wr_ptr_; omega
  · unfold unread at_rd
    rw [hl2, hrd]
    show List.take (mb.length - k) (List.drop (mb.rd_ptr_ + k) mb.base) = _
    rw [List.drop_take, List.drop_drop]
  · unfold unread
    rw [List.take_take, Nat.min_eq_left hk]

theorem Cursors.length_unread {mb : ACE_Message_Block} (h : mb.Cursors) :
    mb.unread.length = mb.length := by
  have hl := h.length_eq_cursors
  obtain ⟨h1, h2, h3⟩ := h
  simp only [unread, at_rd, List.length_take, List.length_drop, size] at *
  omega

/-- The block `send` builds over the caller's bytes. -/
theorem send_block (b : List Byte) (len : Nat) (h1 : len < SIZE_MOD) (h2 : len ≤ b.length) :
    ACE_Message_Block.wr_ptr { base := b.take len, rd_ptr_ := 0, wr_ptr_ := 0 } len =
      { base := b.take len, rd_ptr_ := 0, wr_ptr_ := len } ∧
    (ACE_Message_Block.mk (b.take len) 0 len).Cursors ∧
    (ACE_Message_Block.mk (b.take len) 0 len).length = len ∧
    (ACE_Message_Block.mk (b.take len) 0 len).at_rd = b.take len ∧
    (ACE_Message_Block.mk (b.take len) 0 len).unread = b.take len := by
  have hc : (ACE_Message_Block.mk (b.take len) 0 len).Cursors := by
    refine ⟨Nat.zero_le _, ?_, ?_⟩
    · show len ≤ (b.take len).length
      simp [h2]
    · show (b.take len).length < SIZE_MOD
      simp only [List.length_take]; omega
  have hl : (ACE_Message_Block.mk (b.take len) 0 len).length = len := by
    rw [hc.length_eq_cursors]; rfl
  refine ⟨?_, hc, hl, rfl, ?_⟩
  · simp only [wr_ptr, Nat.zero_add, Nat.mod_eq_of_lt h1]
  · unfold unread
    rw [hl]
    show List.take len (List.drop 0 (b.take len)) = _
    simp

end ACE_Message_Block

namespace BufferedSocket

/-! ## Receive path: `recv_soft`, `recv` -/

/-- C3: for every receive-buffer state and every length `n`, `recv_soft(dst, n)`
returns true exactly when `recv_len() >= n`; the socket (storage, read cursor,
write cursor, hence `recv_len`) is returned unchanged in both cases; on false
`dst` is untouched; on true `dst` has its first `n` bytes replaced by the
bytes found at the read cursor, which under the cursor invariant are exactly
`n` bytes, the first `n` unread ones. -/
theorem recv_soft_spec (s : BufferedSocket) (buf : List Byte) (n : Nat) :
    ((recv_soft s buf n).1 = true ↔ n ≤ recv_len s) ∧
    (recv_soft s buf n).2.2 = s ∧
    ((recv_soft s buf n).1 = false → (recv_soft s buf n).2.1 = buf) ∧
    ((recv_soft s buf n).1 = true →
      (recv_soft s buf n).2.1 = s.input_buffer_.at_rd.take n ++ buf.drop n) ∧
    (s.input_buffer_.WF → n ≤ recv_len s →
      (s.input_buffer_.at_rd.take n).length = n ∧
      s.input_buffer_.at_rd.take n = s.input_buffer_.unread.take n) := by
  unfold recv_soft recv_len
  by_cases h : s.input_buffer_.length < n
  · simp [h]
  · simp only [h, if_false, memcpy, true_iff, true_and]
    refine ⟨by omega, by simp, by simp, ?_⟩
    intro hwf hn
    exact hwf.at_rd_take n hn

/-- Witness of C3 on the sample socket (unread bytes `2, 3`): a soft read of 2
bytes succeeds and copies them, a soft read of 3 bytes fails. -/
theorem recv_soft_spec_witness :
    (recv_soft sample [9, 9, 9] 2).1 = true ∧
    (recv_soft sample [9, 9, 9] 2).2.1 = [2, 3, 9] ∧
    (recv_soft sample [9, 9, 9] 3).1 = false := by
  refine ⟨((recv_soft_spec sample [9, 9, 9] 2).1).2 (by decide), ?_, ?_⟩
  · exact ((recv_soft_spec sample [9, 9, 9] 2).2.2.2.1
      (((recv_soft_spec sample [9, 9, 9] 2).1).2 (by decide)))
  · have h := (recv_soft_spec sample [9, 9, 9] 3).1
    by_contra hc
    have h2 := h.1 (by simpa using hc)
    exact absurd h2 (by decide)

/-- C4: for every receive-buffer state and every length `n`: if
`recv_len() >= n` then `recv(dst, n)` returns true, copies the bytes at the
read cursor to `dst` (under the cursor invariant exactly the first `n` unread
bytes), leaves `recv_len()` exactly `n` smaller, and changes nothing of the
socket but the read cursor (write cursor, stored bytes, outbound queue,
reactor interest, trace and address are the same); if `recv_len() < n` it
returns false and neither `dst` nor the socket changes. -/
theorem recv_spec (s : BufferedSocket) (buf : List Byte) (n : Nat) :
    (n ≤ recv_len s →
      (recv s buf n).1 = true ∧
      (recv s buf n).2.1 = s.input_buffer_.at_rd.take n ++ buf.drop n ∧
      recv_len (recv s buf n).2.2 = recv_len s - n ∧
      (recv s buf n).2.2 =
        { s with input_buffer_ :=
            { s.input_buffer_ with rd_ptr_ := (recv s buf n).2.2.input_buffer_.rd_ptr_ } } ∧
      (s.input_buffer_.WF →
        (s.input_buffer_.at_rd.take n).length = n ∧
        s.input_buffer_.at_rd.take n = s.input_buffer_.unread.take n ∧
        (recv s buf n).2.2.input_buffer_.rd_ptr_ = s.input_buffer_.rd_ptr_ + n)) ∧
    (recv_len s < n → recv s buf n = (false, buf, s)) := by
  unfold recv recv_soft recv_skip recv_len
  constructor
  · intro hn
    have h : ¬ s.input_buffer_.length < n := by omega
    simp only [h, if_false, if_true, memcpy, true_and]
    refine ⟨?_, ?_, ?_⟩
    · exact ACE_Message_Block.length_rd_ptr _ _ hn
    · rfl
    · intro hwf
      have h1 := hwf.at_rd_take n hn
      refine ⟨h1.1, h1.2, ?_⟩
      have hl := hwf.length_eq
      obtain ⟨h1, h2, h3⟩ := hwf
      simp only [ACE_Message_Block.rd_ptr, ACE_Message_Block.size, SIZE_MOD, SSIZE_LIMIT] at *
      omega
  · intro hn
    simp [hn]

/-- Witness of C4 on the sample socket (unread bytes `2, 3`): `recv` of 2 bytes
succeeds and leaves nothing unread, `recv` of 3 bytes fails without effect. -/
theorem recv_spec_witness :
    (recv sample [9, 9, 9] 2).1 = true ∧
    recv_len (recv sample [9, 9, 9] 2).2.2 = 0 ∧
    recv sample [9, 9, 9] 3 = (false, [9, 9, 9], sample) :=
  ⟨((recv_spec sample [9, 9, 9] 2).1 (by decide)).1,
   ((recv_spec sample [9, 9, 9] 2).1 (by decide)).2.2.1,
   (recv_spec sample [9, 9, 9] 3).2 (by decide)⟩

end BufferedSocket

namespace BufferedSocket

/-! ## Receive path: `handle_input` -/

/-- C5: `handle_input` classifies a read that delivers no data: a read returning
0 bytes (peer EOF) gives the close outcome `-1`, a negative result whose errno
is not `EWOULDBLOCK` (fatal error) gives `-1`, and a negative result with errno
`EWOULDBLOCK` gives the keep-waiting outcome `0`.  In all three cases the
socket is the old one with the single `peer().recv` call appended to its
trace: the receive buffer is unchanged (no compaction), `OnRead` is not
invoked, and read interest is untouched. -/
theorem handle_input_no_data (s : BufferedSocket) (env : RecvEnv)
    (OnRead : BufferedSocket → BufferedSocket) (h : env.n ≤ 0) :
    (env.n = 0 → (handle_input s env OnRead).1 = -1) ∧
    (env.n < 0 → env.errno ≠ EWOULDBLOCK → (handle_input s env OnRead).1 = -1) ∧
    (env.n < 0 → env.errno = EWOULDBLOCK → (handle_input s env OnRead).1 = 0) ∧
    (handle_input s env OnRead).2.input_buffer_ = s.input_buffer_ ∧
    (handle_input s env OnRead).2.READ_MASK = s.READ_MASK ∧
    (handle_input s env OnRead).2 =
      { s with trace := s.trace ++
          [Event.peer_recv (to_size_t (to_ssize_t s.input_buffer_.space)) env.n env.errno] } := by
  unfold handle_input log
  by_cases h0 : env.n < 0
  · simp only [h0, if_true]
    refine ⟨by omega, ?_, ?_, ?_⟩
    · intro _ h2; simp [h2]
    · intro _ h2; simp [h2]
    · simp
  · have h1 : env.n = 0 := by omega
    simp [h1]

/-- Witness of C5 on the sample socket: EOF, a fatal errno and would-block. -/
theorem handle_input_no_data_witness :
    (handle_input sample ⟨0, 0, []⟩ (fun t => recv_skip t 1)).1 = -1 ∧
    (handle_input sample ⟨-1, 104, []⟩ (fun t => recv_skip t 1)).1 = -1 ∧
    (handle_input sample ⟨-1, EWOULDBLOCK, []⟩ (fun t => recv_skip t 1)).1 = 0 ∧
    (handle_input sample ⟨-1, EWOULDBLOCK, []⟩ (fun t => recv_skip t 1)).2.input_buffer_ =
      sample.input_buffer_ :=
  ⟨(handle_input_no_data sample ⟨0, 0, []⟩ _ (by decide)).1 rfl,
   (handle_input_no_data sample ⟨-1, 104, []⟩ _ (by decide)).2.1 (by decide) (by decide),
   (handle_input_no_data sample ⟨-1, EWOULDBLOCK, []⟩ _ (by decide)).2.2.1 (by decide) rfl,
   (handle_input_no_data sample ⟨-1, EWOULDBLOCK, []⟩ _ (by decide)).2.2.2.1⟩

/-- C6: when the transport delivers `n > 0` bytes (an `ssize_t`), `handle_input`
returns the invoke-again outcome `1` exactly when `n` equals the free space
measured before the read, and the done-for-now outcome `0` otherwise; the
result is the same for every `OnRead` hook, whatever it consumes. -/
theorem handle_input_result (s : BufferedSocket) (env : RecvEnv)
    (OnRead : BufferedSocket → BufferedSocket)
    (hpos : 0 < env.n) (hrange : env.n < (SSIZE_LIMIT : Int)) :
    ((handle_input s env OnRead).1 = 1 ↔ env.n = (s.input_buffer_.space : Int)) ∧
    ((handle_input s env OnRead).1 = 0 ↔ env.n ≠ (s.input_buffer_.space : Int)) ∧
    (∀ OnRead2 : BufferedSocket → BufferedSocket,
      (handle_input s env OnRead2).1 = (handle_input s env OnRead).1) := by
  have h1 : ¬ env.n < 0 := by omega
  have h2 : ¬ env.n = 0 := by omega
  have hsp : s.input_buffer_.space < SIZE_MOD := by
    unfold ACE_Message_Block.space
    exact Nat.mod_lt _ (by decide)
  have key : (env.n = to_ssize_t s.input_buffer_.space) ↔
      env.n = (s.input_buffer_.space : Int) := by
    unfold to_ssize_t
    simp only [SIZE_MOD, SSIZE_LIMIT] at *
    have : s.input_buffer_.space % 18446744073709551616 = s.input_buffer_.space :=
      Nat.mod_eq_of_lt hsp
    rw [this]
    split <;> omega
  unfold handle_input
  simp only [h1, h2, if_false]
  by_cases hk : env.n = to_ssize_t s.input_buffer_.space
  · have hk2 := key.1 hk
    simp only [hk, if_true]
    rw [← hk, hk2]
    simp
  · have hk2 : ¬ env.n = (s.input_buffer_.space : Int) := fun h => hk (key.2 h)
    simp only [hk, if_false]
    simp [hk2]

/-- Witness of C6 on the sample socket (5 bytes free): a 5-byte read asks to be
invoked again, a 2-byte read does not. -/
theorem handle_input_result_witness :
    (handle_input sample ⟨5, 0, [1, 2, 3, 4, 5]⟩ id).1 = 1 ∧
    (handle_input sample ⟨2, 0, [1, 2]⟩ id).1 = 0 :=
  ⟨(handle_input_result sample ⟨5, 0, [1, 2, 3, 4, 5]⟩ id (by decide) (by decide)).1.2
     (by decide),
   (handle_input_result sample ⟨2, 0, [1, 2]⟩ id (by decide) (by decide)).2.1.2 (by decide)⟩

/-- C7: a `handle_input` call that reads `n > 0` bytes (`n` at most the free
space) into a buffer satisfying the cursor invariant and holding `a` unread
bytes, and whose `OnRead` hook has on the filled buffer the effect of consuming
`k <= a + n` bytes, leaves after compaction the read cursor at 0,
`recv_len() = a + n - k`, free space `capacity - (a + n - k)` and, as unread
bytes, the old unread bytes followed by the new ones with the first `k`
removed, in order; the capacity is unchanged and the result is `1` exactly
when the read filled the free space. -/
theorem handle_input_compaction (s : BufferedSocket) (env : RecvEnv)
    (OnRead : BufferedSocket → BufferedSocket) (k : Nat)
    (hwf : s.input_buffer_.WF)
    (hpos : 0 < env.n) (hfit : env.n ≤ (s.input_buffer_.space : Int))
    (hdata : (env.data.length : Int) = env.n)
    (hk : k ≤ recv_len s + env.data.length)
    (hhook : ∀ t : BufferedSocket,
      t.input_buffer_ = (s.input_buffer_.fill env.data env.data.length).wr_ptr env.data.length →
      (OnRead t).input_buffer_ = (recv_skip t k).input_buffer_) :
    (handle_input s env OnRead).2.input_buffer_.rd_ptr_ = 0 ∧
    recv_len (handle_input s env OnRead).2 = recv_len s + env.data.length - k ∧
    (handle_input s env OnRead).2.input_buffer_.space =
      s.input_buffer_.size - (recv_len s + env.data.length - k) ∧
    (handle_input s env OnRead).2.input_buffer_.unread =
      (s.input_buffer_.unread ++ env.data).drop k ∧
    (handle_input s env OnRead).2.input_buffer_.size = s.input_buffer_.size ∧
    ((handle_input s env OnRead).1 = 1 ↔ env.data.length = s.input_buffer_.space) := by
  have h1 : ¬ env.n < 0 := by omega
  have h2 : ¬ env.n = 0 := by omega
  have hsp := hwf.space_eq
  have hlim : s.input_buffer_.space < SSIZE_LIMIT := by
    have := hwf.2.2
    omega
  have hts : to_size_t env.n = env.data.length := by
    rw [to_size_t_of_nonneg (by omega) (by simp only [SIZE_MOD, SSIZE_LIMIT] at *; omega)]
    omega
  have hfit2 : env.data.length ≤ s.input_buffer_.space := by omega
  obtain ⟨fwf, fsz, frd, fwr, fun_⟩ := hwf.fill_spec env.data hfit2
  have fl := fwf.length_eq
  have sl := hwf.length_eq
  have hk2 : k ≤ ((s.input_buffer_.fill env.data env.data.length).wr_ptr
      env.data.length).length := by
    unfold recv_len at hk
    rw [fl, fwr, frd]
    have := hwf.1
    omega
  obtain ⟨rwf, rrd, run_⟩ := fwf.rd_ptr_spec k hk2
  have rl := ACE_Message_Block.length_rd_ptr _ k hk2
  obtain ⟨cwf, crd, csz, cl, cun⟩ := rwf.crunch_spec
  have hbuf : (handle_input s env OnRead).2.input_buffer_ =
      (((s.input_buffer_.fill env.data env.data.length).wr_ptr env.data.length).rd_ptr
        k).crunch := by
    unfold handle_input
    simp only [h1, h2, if_false, hts]
    rw [hhook _ rfl]
    rfl
  have hres : (handle_input s env OnRead).1 =
      if env.n = to_ssize_t s.input_buffer_.space then 1 else 0 := by
    unfold handle_input
    simp only [h1, h2, if_false]
  have hlen : recv_len (handle_input s env OnRead).2 = recv_len s + env.data.length - k := by
    unfold recv_len
    rw [hbuf, cl, rl, fl, fwr, frd, sl]
    have := hwf.1
    omega
  refine ⟨?_, hlen, ?_, ?_, ?_, ?_⟩
  · rw [hbuf]; exact crd
  · have hwf2 : (handle_input s env OnRead).2.input_buffer_.WF := by rw [hbuf]; exact cwf
    have hl2 := hwf2.length_eq
    have hrd0 : (handle_input s env OnRead).2.input_buffer_.rd_ptr_ = 0 := by
      rw [hbuf]; exact crd
    have hsz2 : (handle_input s env OnRead).2.input_buffer_.size = s.input_buffer_.size := by
      rw [hbuf, csz]; exact fsz
    rw [hwf2.space_eq, hsz2, ← hlen]
    unfold recv_len
    rw [hl2, hrd0]
    rfl
  · rw [hbuf, cun, run_, fun_]
  · rw [hbuf, csz]; exact fsz
  · rw [hres, to_ssize_t_of_lt hlim]
    constructor
    · intro h
      by_cases hc : env.n = (s.input_buffer_.space : Int)
      · omega
      · simp [hc] at h
    · intro h
      have hc : env.n = (s.input_buffer_.space : Int) := by omega
      simp [hc]

/-- Witness of C7: capacity 4096, empty buffer, 4096 bytes read, the hook
consumes 4086: the outcome is invoke-again, `recv_len() = 10` and the free
space is 4086. -/
theorem handle_input_compaction_witness :
    (handle_input ctor ⟨4096, 0, List.replicate 4096 7⟩ (fun t => recv_skip t 4086)).1 = 1 ∧
    recv_len (handle_input ctor ⟨4096, 0, List.replicate 4096 7⟩
      (fun t => recv_skip t 4086)).2 = 10 ∧
    (handle_input ctor ⟨4096, 0, List.replicate 4096 7⟩
      (fun t => recv_skip t 4086)).2.input_buffer_.space = 4086 := by
  obtain ⟨cwf, csz, csp, cl⟩ := ofSize_facts 4096 (by decide)
  have e1 : recv_len ctor = 0 := cl
  have e2 : ctor.input_buffer_.size = 4096 := csz
  have e3 : ctor.input_buffer_.space = 4096 := csp
  have e4 : (RecvEnv.mk 4096 0 (List.replicate 4096 7)).data.length = 4096 :=
    List.length_replicate _ _
  have h := handle_input_compaction ctor ⟨4096, 0, List.replicate 4096 7⟩
    (fun t => recv_skip t 4086) 4086 cwf (by decide)
    (by rw [e3]; decide) (by rw [e4]; rfl) (by rw [e1, e4]; omega) (fun t _ => rfl)
  rw [e1, e2, e3, e4] at h
  exact ⟨h.2.2.2.2.2.2 rfl, h.2.1, h.2.2.1⟩

end BufferedSocket

namespace BufferedSocket

/-! ## Send path: closed forms and invariants -/

theorem wire_log (s : BufferedSocket) (e : Event) : (s.log e).wire = s.wire ++ e.sent := by
  simp [wire, log]

theorem pending_log (s : BufferedSocket) (e : Event) : (s.log e).pending = s.pending := rfl

theorem noblk_send_wouldblock (s : BufferedSocket) (mb : ACE_Message_Block) (res : SendResult)
    (hl : mb.length ≠ 0) (hn : res.n < 0) (he : res.errno = EWOULDBLOCK) :
    noblk_send s mb res =
      (0, s.log (Event.peer_send (mb.at_rd.take mb.length) res.n res.errno)) := by
  unfold noblk_send
  simp [hl, hn, he]

theorem noblk_send_accept (s : BufferedSocket) (mb : ACE_Message_Block) (res : SendResult)
    (hl : mb.length ≠ 0) (hn : 0 < res.n) :
    noblk_send s mb res =
      (res.n, s.log (Event.peer_send (mb.at_rd.take mb.length) res.n res.errno)) := by
  unfold noblk_send
  have h1 : ¬ res.n < 0 := by omega
  have h2 : ¬ res.n = 0 := by omega
  simp [hl, h1, h2]

theorem send_enqueue_ok (s : BufferedSocket) (mb : ACE_Message_Block) (env : SendEnv)
    (h : env.enqueue_tail ≠ -1) :
    send_enqueue s mb env =
      (decide (env.schedule_wakeup ≠ -1),
        schedule_wakeup { s with msg_queue := s.msg_queue ++ [mb] } env.schedule_wakeup) := by
  unfold send_enqueue
  simp [h, ACE_Message_Block.clone]

theorem schedule_wakeup_facts (s : BufferedSocket) (rc : Int) :
    (schedule_wakeup s rc).msg_queue = s.msg_queue ∧
    (schedule_wakeup s rc).trace = s.trace ++ [Event.schedule_wakeup_WRITE rc] ∧
    (schedule_wakeup s rc).wire = s.wire ∧
    (schedule_wakeup s rc).pending = s.pending ∧
    (schedule_wakeup s rc).input_buffer_ = s.input_buffer_ ∧
    (rc ≠ -1 → (schedule_wakeup s rc).WRITE_MASK = true) ∧
    (rc = -1 → (schedule_wakeup s rc).WRITE_MASK = s.WRITE_MASK) := by
  unfold schedule_wakeup
  by_cases h : rc = -1
  · simp [h, log, wire, pending, Event.sent]
  · simp [h, log, wire, pending, Event.sent]

/-- Closed form of `send` when the queue is empty and the inline write would
block. -/
theorem send_inline_wouldblock (s : BufferedSocket) (b : List Byte) (len : Nat) (env : SendEnv)
    (hq : s.msg_queue = []) (hlen : 0 < len) (hsz : len < SIZE_MOD) (hb : len ≤ b.length)
    (hn : env.res.n < 0) (he : env.res.errno = EWOULDBLOCK) :
    send s (some b) len env =
      send_enqueue (s.log (Event.peer_send (b.take len) env.res.n env.res.errno))
        { base := b.take len, rd_ptr_ := 0, wr_ptr_ := len } env := by
  obtain ⟨e1, hc, hl, hat, hun⟩ := ACE_Message_Block.send_block b len hsz hb
  unfold send
  have h0 : ¬ len = 0 := by omega
  simp only [h0, if_false, e1, hq, List.isEmpty_nil, if_true]
  rw [noblk_send_wouldblock _ _ _ (by rw [hl]; exact h0) hn he, hl, hat]
  have h3 : ¬ ((0 : Int) = (len : Int)) := by omega
  have hblk : (ACE_Message_Block.mk (b.take len) 0 len).rd_ptr (to_size_t 0) =
      { base := b.take len, rd_ptr_ := 0, wr_ptr_ := len } := by
    have : to_size_t 0 = 0 := by decide
    rw [this]; rfl
  simp only [lt_irrefl, if_false, h3, hblk, List.take_take, Nat.min_self]

/-- Closed form of `send` when the queue is empty and the inline write accepts
`n` bytes, `0 < n ≤ len`. -/
theorem send_inline_accept (s : BufferedSocket) (b : List Byte) (len n : Nat) (env : SendEnv)
    (hq : s.msg_queue = []) (hsz : len < SIZE_MOD) (hb : len ≤ b.length)
    (hn : 0 < env.res.n) (hn2 : env.res.n = (n : Int)) (hle : n ≤ len) :
    send s (some b) len env =
      if n = len then (true, s.log (Event.peer_send (b.take len) env.res.n env.res.errno))
      else send_enqueue (s.log (Event.peer_send (b.take len) env.res.n env.res.errno))
        { base := b.take len, rd_ptr_ := n, wr_ptr_ := len } env := by
  obtain ⟨e1, hc, hl, hat, hun⟩ := ACE_Message_Block.send_block b len hsz hb
  unfold send
  have h0 : ¬ len = 0 := by omega
  simp only [h0, if_false, e1, hq, List.isEmpty_nil, if_true]
  rw [noblk_send_accept _ _ _ (by rw [hl]; exact h0) hn, hl, hat]
  have h1 : ¬ env.res.n < 0 := by omega
  simp only [h1, if_false]
  simp only [List.take_take, Nat.min_self]
  by_cases hc2 : n = len
  · have : env.res.n = (len : Int) := by omega
    simp only [this, hc2, if_true]
  · have h3 : ¬ env.res.n = (len : Int) := by omega
    have h4 : to_size_t env.res.n = n := by
      rw [to_size_t_of_nonneg (by omega) (by omega), hn2]; simp
    have hblk : (ACE_Message_Block.mk (b.take len) 0 len).rd_ptr (to_size_t env.res.n) =
        { base := b.take len, rd_ptr_ := n, wr_ptr_ := len } := by
      rw [h4]
      simp only [ACE_Message_Block.rd_ptr, Nat.zero_add]
      rw [Nat.mod_eq_of_lt (by omega)]
    simp only [h3, hc2, if_false, hblk]

/-- Closed form of `send` when the queue is not empty. -/
theorem send_backlog (s : BufferedSocket) (b : List Byte) (len : Nat) (env : SendEnv)
    (hq : s.msg_queue ≠ []) (hlen : 0 < len) (hsz : len < SIZE_MOD) (hb : len ≤ b.length) :
    send s (some b) len env =
      send_enqueue s { base := b.take len, rd_ptr_ := 0, wr_ptr_ := len } env := by
  obtain ⟨e1, hc, hl, hat, hun⟩ := ACE_Message_Block.send_block b len hsz hb
  unfold send
  have h0 : ¬ len = 0 := by omega
  have hq2 : s.msg_queue.isEmpty = false := by
    cases hm : s.msg_queue with
    | nil => exact absurd hm hq
    | cons a l => rfl
  simp only [h0, if_false, e1, hq2, Bool.false_eq_true]

theorem pending_cons (s : BufferedSocket) (mb : ACE_Message_Block)
    (rest : List ACE_Message_Block) :
    ({ s with msg_queue := mb :: rest } : BufferedSocket).pending =
      mb.unread ++ ({ s with msg_queue := rest } : BufferedSocket).pending := by
  simp [pending]

theorem pending_snoc (s : BufferedSocket) (mb : ACE_Message_Block) :
    ({ s with msg_queue := s.msg_queue ++ [mb] } : BufferedSocket).pending =
      s.pending ++ mb.unread := by
  simp [pending]

theorem pending_of_queue (s : BufferedSocket) (mb : ACE_Message_Block)
    (rest : List ACE_Message_Block) (hm : s.msg_queue = mb :: rest) :
    s.pending = mb.unread ++ ({ s with msg_queue := rest } : BufferedSocket).pending := by
  simp [pending, hm]

/-- Closed form of `handle_output` on an empty queue. -/
theorem handle_output_nil (s : BufferedSocket) (env : OutputEnv) (hm : s.msg_queue = []) :
    handle_output s env = (0, cancel_wakeup s) := by
  unfold handle_output
  rw [hm]

/-- Closed form of `handle_output` when `dequeue_head` reports `-1`. -/
theorem handle_output_dequeue_fail (s : BufferedSocket) (env : OutputEnv)
    (hm : s.msg_queue ≠ []) (hd : env.dequeue_head = -1) :
    handle_output s env = (-1, s) := by
  unfold handle_output
  cases h : s.msg_queue with
  | nil => exact absurd h hm
  | cons mb rest => simp [hd]

/-- Closed form of `handle_output` when the head fragment is empty. -/
theorem handle_output_empty_block (s : BufferedSocket) (env : OutputEnv)
    (mb : ACE_Message_Block) (rest : List ACE_Message_Block)
    (hm : s.msg_queue = mb :: rest) (hd : env.dequeue_head ≠ -1) (hl : mb.length = 0) :
    handle_output s env = (-1, { s with msg_queue := rest }) := by
  unfold handle_output
  rw [hm]
  simp [hd, noblk_send, hl]

/-- Closed form of `handle_output` when the write would block. -/
theorem handle_output_wouldblock (s : BufferedSocket) (env : OutputEnv)
    (mb : ACE_Message_Block) (rest : List ACE_Message_Block)
    (hm : s.msg_queue = mb :: rest) (hd : env.dequeue_head ≠ -1) (hl : mb.length ≠ 0)
    (hn : env.res.n < 0) (he : env.res.errno = EWOULDBLOCK) (hq : env.enqueue_head ≠ -1) :
    handle_output s env =
      (0, { s with
              msg_queue := mb.rd_ptr 0 :: rest
              trace := s.trace ++
                [Event.peer_send (mb.at_rd.take mb.length) env.res.n env.res.errno] }) := by
  unfold handle_output
  rw [hm]
  simp only [hd, if_false]
  rw [noblk_send_wouldblock _ _ _ hl hn he]
  have h3 : ¬ ((0 : Int) = (mb.length : Int)) := by omega
  have h4 : to_size_t 0 = 0 := by decide
  simp only [lt_irrefl, if_false, h3, hq, h4, log]

/-- Closed form of `handle_output` when the write accepts `n > 0` bytes. -/
theorem handle_output_accept (s : BufferedSocket) (env : OutputEnv)
    (mb : ACE_Message_Block) (rest : List ACE_Message_Block) (n : Nat)
    (hm : s.msg_queue = mb :: rest) (hd : env.dequeue_head ≠ -1) (hl : mb.length ≠ 0)
    (hn : 0 < env.res.n) (hn2 : env.res.n = (n : Int)) (hle : n ≤ mb.length)
    (hq : env.enqueue_head ≠ -1) :
    handle_output s env =
      if n = mb.length then
        (1, { s with
                msg_queue := rest
                trace := s.trace ++
                  [Event.peer_send (mb.at_rd.take mb.length) env.res.n env.res.errno] })
      else
        (0, { s with
                msg_queue := mb.rd_ptr n :: rest
                trace := s.trace ++
                  [Event.peer_send (mb.at_rd.take mb.length) env.res.n env.res.errno] }) := by
  unfold handle_output
  rw [hm]
  simp only [hd, if_false]
  rw [noblk_send_accept _ _ _ hl hn]
  have h1 : ¬ env.res.n < 0 := by omega
  have hlt : mb.length < SIZE_MOD := Nat.mod_lt _ (by decide)
  have h4 : to_size_t env.res.n = n := by
    rw [to_size_t_of_nonneg (by omega) (by omega), hn2]; simp
  simp only [h1, if_false, h4, hq, log]
  by_cases hc : n = mb.length
  · have : env.res.n = (mb.length : Int) := by omega
    simp only [this, hc, if_true]
  · have : ¬ env.res.n = (mb.length : Int) := by omega
    simp only [this, hc, if_false]

theorem wire_with_queue_trace (s : BufferedSocket) (q : List ACE_Message_Block) (e : Event) :
    ({ s with msg_queue := q, trace := s.trace ++ [e] } : BufferedSocket).wire =
      s.wire ++ e.sent := by
  simp [wire]

/-- One `handle_output` call keeps every queued fragment within its cursors and
keeps the stream (bytes on the wire followed by the queued remainders). -/
theorem handle_output_stream (s : BufferedSocket) (env : OutputEnv)
    (hinv : ∀ mb ∈ s.msg_queue, mb.Cursors) (hok : (Call.handle_output env).ok s) :
    (∀ mb ∈ (handle_output s env).2.msg_queue, mb.Cursors) ∧
    (handle_output s env).2.wire ++ (handle_output s env).2.pending = s.wire ++ s.pending := by
  obtain ⟨hacc, henq⟩ := hok
  cases hm : s.msg_queue with
  | nil =>
    rw [handle_output_nil s env hm]
    refine ⟨?_, ?_⟩
    · show ∀ mb ∈ s.msg_queue, mb.Cursors
      exact hinv
    · simp [cancel_wakeup, log, wire, pending, Event.sent]
  | cons mb rest =>
    have hne : s.msg_queue ≠ [] := by rw [hm]; exact List.cons_ne_nil _ _
    have hmb : mb.Cursors := hinv mb (by rw [hm]; exact List.mem_cons_self _ _)
    have hrest : ∀ x ∈ rest, x.Cursors := fun x hx =>
      hinv x (by rw [hm]; exact List.mem_cons_of_mem _ hx)
    have hpend := pending_of_queue s mb rest hm
    have hlu := hmb.length_unread
    by_cases hd : env.dequeue_head = -1
    · rw [handle_output_dequeue_fail s env hne hd]
      exact ⟨by rw [hm]; intro x hx; rcases List.mem_cons.1 hx with h | h
                · rw [h]; exact hmb
                · exact hrest x h, rfl⟩
    · by_cases hl : mb.length = 0
      · rw [handle_output_empty_block s env mb rest hm hd hl]
        refine ⟨hrest, ?_⟩
        have : mb.unread = [] := by
          apply List.eq_nil_of_length_eq_zero; rw [hlu, hl]
        rw [hpend, this]; rfl
      · have hacc2 : env.res.accepts mb.length := hacc mb (by rw [hm]; rfl) hl
        rcases hacc2 with ⟨hn, he⟩ | ⟨hn, hle⟩
        · rw [handle_output_wouldblock s env mb rest hm hd hl hn he henq]
          obtain ⟨c1, c2, c3, c4, c5⟩ := hmb.rd_ptr_cursors 0 (Nat.zero_le _)
          refine ⟨?_, ?_⟩
          · intro x hx
            rcases List.mem_cons.1 hx with h | h
            · rw [h]; exact c1
            · exact hrest x h
          · show (BufferedSocket.wire _) ++ (BufferedSocket.pending _) = _
            rw [wire_with_queue_trace, hpend]
            have hs : (Event.peer_send (mb.at_rd.take mb.length) env.res.n env.res.errno).sent
                = [] := by
              have : env.res.n.toNat = 0 := by omega
              simp [Event.sent, this]
            rw [hs]
            simp [pending, c4]
        · obtain ⟨n, hn2⟩ : ∃ n : Nat, env.res.n = (n : Int) := ⟨env.res.n.toNat, by omega⟩
          have hle2 : n ≤ mb.length := by omega
          rw [handle_output_accept s env mb rest n hm hd hl hn hn2 hle2 henq]
          obtain ⟨c1, c2, c3, c4, c5⟩ := hmb.rd_ptr_cursors n hle2
          have hs : (Event.peer_send (mb.at_rd.take mb.length) env.res.n env.res.errno).sent
              = mb.unread.take n := by
            have : env.res.n.toNat = n := by omega
            simp only [Event.sent, this, List.take_take, Nat.min_eq_left hle2]
            exact c5
          by_cases hc : n = mb.length
          · rw [if_pos hc]
            refine ⟨hrest, ?_⟩
            show (BufferedSocket.wire _) ++ (BufferedSocket.pending _) = _
            rw [wire_with_queue_trace, hpend, hs, hc, ← hlu, List.take_length]
            simp [pending]
          · rw [if_neg hc]
            refine ⟨?_, ?_⟩
            · intro x hx
              rcases List.mem_cons.1 hx with h | h
              · rw [h]; exact c1
              · exact hrest x h
            · show (BufferedSocket.wire _) ++ (BufferedSocket.pending _) = _
              rw [wire_with_queue_trace, hpend, hs]
              simp only [pending, List.map_cons, List.flatten_cons, c4]
              rw [List.append_assoc, ← List.append_assoc (List.take n mb.unread),
                List.take_append_drop]

/-- One `send` call keeps every queued fragment within its cursors and extends
the stream by its payload. -/
theorem send_stream (s : BufferedSocket) (buf : Option (List Byte)) (len : Nat) (env : SendEnv)
    (hinv : ∀ mb ∈ s.msg_queue, mb.Cursors) (hok : (Call.send buf len env).ok s) :
    (∀ mb ∈ (send s buf len env).2.msg_queue, mb.Cursors) ∧
    (send s buf len env).2.wire ++ (send s buf len env).2.pending =
      s.wire ++ s.pending ++ (Call.send buf len env).payload := by
  obtain ⟨hargs, hacc, henq⟩ := hok
  cases buf with
  | none => exact ⟨hinv, by simp [send, Call.payload]⟩
  | some b =>
    obtain ⟨hsz, hb⟩ := hargs
    show _ ∧ _ = s.wire ++ s.pending ++ b.take len
    by_cases h0 : len = 0
    · subst h0
      exact ⟨hinv, by simp [send]⟩
    · have hlen : 0 < len := by omega
      obtain ⟨e1, hc, hl, hat, hun⟩ := ACE_Message_Block.send_block b len hsz hb
      -- what a successful enqueue of block `mb` after logging event `e` gives
      have enq : ∀ (t : BufferedSocket) (mb : ACE_Message_Block), mb.Cursors →
          (∀ x ∈ t.msg_queue, x.Cursors) →
          (∀ x ∈ (send_enqueue t mb env).2.msg_queue, x.Cursors) ∧
          (send_enqueue t mb env).2.wire ++ (send_enqueue t mb env).2.pending =
            t.wire ++ t.pending ++ mb.unread := by
        intro t mb hmb ht
        rw [send_enqueue_ok _ _ _ henq]
        obtain ⟨f1, f2, f3, f4, f5, f6, f7⟩ := schedule_wakeup_facts
          { t with msg_queue := t.msg_queue ++ [mb] } env.schedule_wakeup
        refine ⟨?_, ?_⟩
        · rw [f1]
          intro x hx
          rcases List.mem_append.1 hx with h | h
          · exact ht x h
          · rw [List.mem_singleton.1 h]; exact hmb
        · rw [f3, f4, pending_snoc]
          show t.wire ++ _ = _
          rw [List.append_assoc]
      by_cases hq : s.msg_queue = []
      · rcases hacc hq (by simp) h0 with ⟨hn, he⟩ | ⟨hn, hle⟩
        · rw [send_inline_wouldblock s b len env hq hlen hsz hb hn he]
          obtain ⟨g1, g2⟩ := enq (s.log (Event.peer_send (b.take len) env.res.n env.res.errno))
            _ hc hinv
          refine ⟨g1, ?_⟩
          rw [g2, wire_log, pending_log, hun]
          have : env.res.n.toNat = 0 := by omega
          simp [Event.sent, this]
        · obtain ⟨n, hn2⟩ : ∃ n : Nat, env.res.n = (n : Int) := ⟨env.res.n.toNat, by omega⟩
          have hle2 : n ≤ len := by omega
          rw [send_inline_accept s b len n env hq hsz hb hn hn2 hle2]
          have hs : (Event.peer_send (b.take len) env.res.n env.res.errno).sent =
              (b.take len).take n := by
            have : env.res.n.toNat = n := by omega
            simp only [Event.sent, this]
          by_cases hcn : n = len
          · rw [if_pos hcn]
            refine ⟨hinv, ?_⟩
            show (s.log _).wire ++ (s.log _).pending = _
            rw [wire_log, pending_log, hs, hcn]
            simp [pending, hq]
          · rw [if_neg hcn]
            obtain ⟨rc, rrd, rl, run_, rat⟩ := hc.rd_ptr_cursors n (by rw [hl]; exact hle2)
            have hblk : (ACE_Message_Block.mk (b.take len) 0 len).rd_ptr n =
                { base := b.take len, rd_ptr_ := n, wr_ptr_ := len } := by
              simp only [ACE_Message_Block.rd_ptr, Nat.zero_add]
              rw [Nat.mod_eq_of_lt (by omega)]
            rw [hblk] at rc run_
            rw [hun] at run_
            obtain ⟨g1, g2⟩ := enq
              (s.log (Event.peer_send (b.take len) env.res.n env.res.errno)) _ rc hinv
            refine ⟨g1, ?_⟩
            rw [g2, wire_log, pending_log, hs, run_]
            have hp : s.pending = [] := by simp [pending, hq]
            rw [hp]
            simp
      · rw [send_backlog s b len env hq hlen hsz hb]
        obtain ⟨g1, g2⟩ := enq s _ hc hinv
        exact ⟨g1, by rw [g2, hun]⟩

/-- A failure-free run keeps every queued fragment within its cursors and
extends the stream by the payloads submitted, in call order. -/
theorem run_stream (cs : List Call) (s : BufferedSocket)
    (hinv : ∀ mb ∈ s.msg_queue, mb.Cursors) (hok : runOk s cs) :
    (∀ mb ∈ (run s cs).msg_queue, mb.Cursors) ∧
    (run s cs).wire ++ (run s cs).pending = s.wire ++ s.pending ++ submitted cs := by
  induction cs generalizing s with
  | nil => exact ⟨hinv, by simp [run, submitted]⟩
  | cons c cs ih =>
    obtain ⟨hc, hrest⟩ := hok
    have hstep : (∀ mb ∈ (c.step s).msg_queue, mb.Cursors) ∧
        (c.step s).wire ++ (c.step s).pending = s.wire ++ s.pending ++ c.payload := by
      cases c with
      | send buf len env => exact send_stream s buf len env hinv hc
      | handle_output env =>
        have := handle_output_stream s env hinv hc
        refine ⟨this.1, ?_⟩
        show (handle_output s env).2.wire ++ (handle_output s env).2.pending = _
        rw [this.2]; simp [Call.payload]
    obtain ⟨i1, i2⟩ := ih (c.step s) hstep.1 hrest
    refine ⟨i1, ?_⟩
    show (run (c.step s) cs).wire ++ (run (c.step s) cs).pending = _
    rw [i2, hstep.2]
    simp [submitted]

theorem noblk_send_frame (s : BufferedSocket) (mb : ACE_Message_Block) (res : SendResult) :
    (noblk_send s mb res).2.msg_queue = s.msg_queue ∧
    (noblk_send s mb res).2.WRITE_MASK = s.WRITE_MASK ∧
    (noblk_send s mb res).2.READ_MASK = s.READ_MASK ∧
    (noblk_send s mb res).2.input_buffer_ = s.input_buffer_ := by
  unfold noblk_send log
  by_cases h0 : mb.length = 0
  · simp [h0]
  · by_cases h1 : res.n < 0
    · by_cases h2 : res.errno = EWOULDBLOCK <;> simp [h0, h1, h2]
    · by_cases h3 : res.n = 0 <;> simp [h0, h1, h3]

/-- Write interest after `handle_output`: cancelled if the queue was empty at
entry, untouched otherwise. -/
theorem handle_output_WRITE_MASK (s : BufferedSocket) (env : OutputEnv) :
    (handle_output s env).2.WRITE_MASK = if s.msg_queue = [] then false else s.WRITE_MASK := by
  cases hm : s.msg_queue with
  | nil => rw [handle_output_nil s env hm]; simp [cancel_wakeup]
  | cons mb rest =>
    simp only [List.cons_ne_nil, if_false]
    unfold handle_output
    rw [hm]
    obtain ⟨f1, f2, f3, f4⟩ := noblk_send_frame { s with msg_queue := rest } mb env.res
    by_cases hd : env.dequeue_head = -1
    · simp [hd]
    · simp only [hd, if_false]
      split
      · exact f2
      · split
        · exact f2
        · split
          · exact f2
          · exact f2

/-- Write interest and queue after `send`: either the call registered write
interest, or it left both the queue and the interest as they were. -/
theorem send_WRITE_MASK (s : BufferedSocket) (buf : Option (List Byte)) (len : Nat)
    (env : SendEnv) (hw : env.schedule_wakeup ≠ -1) :
    (send s buf len env).2.WRITE_MASK = true ∨
    ((send s buf len env).2.WRITE_MASK = s.WRITE_MASK ∧
      (send s buf len env).2.msg_queue = s.msg_queue) := by
  have enq : ∀ (t : BufferedSocket) (mb : ACE_Message_Block),
      t.WRITE_MASK = s.WRITE_MASK → t.msg_queue = s.msg_queue →
      (send_enqueue t mb env).2.WRITE_MASK = true ∨
      ((send_enqueue t mb env).2.WRITE_MASK = s.WRITE_MASK ∧
        (send_enqueue t mb env).2.msg_queue = s.msg_queue) := by
    intro t mb h1 h2
    unfold send_enqueue
    by_cases he : env.enqueue_tail = -1
    · simp [he, h1, h2]
    · left
      simp only [he, if_false]
      exact (schedule_wakeup_facts _ _).2.2.2.2.2.1 hw
  cases buf with
  | none => right; exact ⟨rfl, rfl⟩
  | some b =>
    by_cases h0 : len = 0
    · subst h0; right; exact ⟨rfl, rfl⟩
    · unfold send
      simp only [h0, if_false]
      generalize ACE_Message_Block.wr_ptr { base := b.take len, rd_ptr_ := 0, wr_ptr_ := 0 }
        len = mb
      obtain ⟨f1, f2, f3, f4⟩ := noblk_send_frame s mb env.res
      generalize noblk_send s mb env.res = r at f1 f2 f3 f4 ⊢
      obtain ⟨n, t⟩ := r
      simp only at f1 f2 f3 f4 ⊢
      by_cases hq : s.msg_queue.isEmpty = true
      · rw [if_pos hq]
        by_cases h1 : n < 0
        · right; rw [if_pos h1]; exact ⟨f2, f1⟩
        · rw [if_neg h1]
          by_cases h2 : n = (len : Int)
          · right; rw [if_pos h2]; exact ⟨f2, f1⟩
          · rw [if_neg h2]; exact enq t _ f2 f1
      · rw [if_neg hq]
        exact enq s _ rfl rfl

/-- Write interest is registered whenever the queue is not empty, along every
run whose wake-up registrations succeed. -/
theorem run_WRITE_MASK (cs : List Call) (s : BufferedSocket)
    (hs : s.msg_queue ≠ [] → s.WRITE_MASK = true) (hw : ∀ c ∈ cs, c.wakes) :
    (run s cs).msg_queue ≠ [] → (run s cs).WRITE_MASK = true := by
  induction cs generalizing s with
  | nil => exact hs
  | cons c cs ih =>
    apply ih (c.step s)
    · cases c with
      | send buf len env =>
        have hwk : env.schedule_wakeup ≠ -1 := hw _ (List.mem_cons_self _ _)
        show (send s buf len env).2.msg_queue ≠ [] → (send s buf len env).2.WRITE_MASK = true
        rcases send_WRITE_MASK s buf len env hwk with h | ⟨h1, h2⟩
        · exact fun _ => h
        · rw [h1, h2]; exact hs
      | handle_output env =>
        show (handle_output s env).2.msg_queue ≠ [] → (handle_output s env).2.WRITE_MASK = true
        rw [handle_output_WRITE_MASK]
        by_cases hq : s.msg_queue = []
        · rw [handle_output_nil s env hq]
          intro h; exact absurd hq h
        · simp only [hq, if_false]
          exact fun _ => hs hq
    · exact fun c hc => hw c (List.mem_cons_of_mem _ hc)

/-! ## Send path: claims -/

/-- Counterexample to C1 as stated: the payload `1, 2, 3` is sent on a fresh
socket, the transport accepts one byte (a nonzero count within the offer, no
fatal error) and the queue insertion of the rest reports `-1`: byte `1` is on
the wire, the queue is empty, and the bytes `2, 3` are neither written nor
queued. -/
theorem send_stream_enqueue_failure_counterexample :
    (accepted 1).accepts 3 ∧
    (run ctor [Call.send (some [1, 2, 3]) 3
      { res := accepted 1, enqueue_tail := -1, schedule_wakeup := 0 }]).wire = [1] ∧
    (run ctor [Call.send (some [1, 2, 3]) 3
      { res := accepted 1, enqueue_tail := -1, schedule_wakeup := 0 }]).msg_queue = [] ∧
    submitted [Call.send (some [1, 2, 3]) 3
      { res := accepted 1, enqueue_tail := -1, schedule_wakeup := 0 }] = [1, 2, 3] ∧
    ¬ ((run ctor [Call.send (some [1, 2, 3]) 3
        { res := accepted 1, enqueue_tail := -1, schedule_wakeup := 0 }]).wire ++
      (run ctor [Call.send (some [1, 2, 3]) 3
        { res := accepted 1, enqueue_tail := -1, schedule_wakeup := 0 }]).pending =
      submitted [Call.send (some [1, 2, 3]) 3
        { res := accepted 1, enqueue_tail := -1, schedule_wakeup := 0 }]) := by
  decide

/-- C1 (amended): for every sequence of `send` and `handle_output` calls made on
a fresh socket, over a transport that answers each write attempt with
would-block or by accepting a nonzero number of bytes within the offer, and
with every queue insertion (`enqueue_tail` in `send`, `enqueue_head` in
`handle_output`) succeeding, the bytes written to the transport so far followed by
the unsent remainders of the queued fragments, in queue order, are the
concatenation of the submitted payloads in call order; in particular when the
queue is empty the transmitted stream is exactly that concatenation. -/
theorem send_stream_in_order (cs : List Call) (hok : runOk ctor cs) :
    (run ctor cs).wire ++ (run ctor cs).pending = submitted cs ∧
    ((run ctor cs).msg_queue = [] → (run ctor cs).wire = submitted cs) := by
  have h := (run_stream cs ctor (by intro mb hmb; cases hmb) hok).2
  have h2 : (run ctor cs).wire ++ (run ctor cs).pending = submitted cs := by
    rw [h]; simp [wire, pending, ctor]
  refine ⟨h2, ?_⟩
  intro hq
  have : (run ctor cs).pending = [] := by simp [pending, hq]
  rw [this, List.append_nil] at h2
  exact h2

/-- Witness of C1 (amended): the short interleaving of two payloads `1,2,3` and `4,5`
puts exactly `1,2,3,4,5` on the wire and leaves the queue empty. -/
theorem send_stream_in_order_witness :
    (run ctor shortRun).wire = [1, 2, 3, 4, 5] ∧ (run ctor shortRun).msg_queue = [] ∧
    submitted shortRun = [1, 2, 3, 4, 5] :=
  ⟨((send_stream_in_order shortRun (by decide)).2 (by decide)).trans (by decide),
   by decide, by decide⟩

/-- Counterexample to C8 as stated: three bytes are sent on an empty queue and
the inline write accepts one.  If the queue insertion reports `-1`, `send`
returns false, the queue stays empty and no write interest is registered; if
the insertion succeeds and the wake-up registration reports `-1`, `send`
returns false with no write interest registered. -/
theorem send_short_write_failure_counterexample :
    (send ctor (some [1, 2, 3]) 3
      { res := accepted 1, enqueue_tail := -1, schedule_wakeup := 0 }).1 = false ∧
    (send ctor (some [1, 2, 3]) 3
      { res := accepted 1, enqueue_tail := -1, schedule_wakeup := 0 }).2.msg_queue = [] ∧
    (send ctor (some [1, 2, 3]) 3
      { res := accepted 1, enqueue_tail := -1, schedule_wakeup := 0 }).2.WRITE_MASK = false ∧
    (send ctor (some [1, 2, 3]) 3
      { res := accepted 1, enqueue_tail := 1, schedule_wakeup := -1 }).1 = false ∧
    (send ctor (some [1, 2, 3]) 3
      { res := accepted 1, enqueue_tail := 1, schedule_wakeup := -1 }).2.WRITE_MASK = false := by
  decide

/-- C8 (amended): a non-empty payload of `len` bytes sent while the queue is
empty, whose inline write accepts `n` bytes with `0 <= n < len` (`n = 0` being
would-block), the queue insertion (`enqueue_tail`) and the wake-up
registration (`schedule_wakeup`) succeeding: `send` returns
true, makes exactly one transport write, which puts the head `bytes[0:n]` on
the wire, leaves a queue of exactly one fragment whose unsent remainder is
`bytes[n:]` (`len - n` bytes), and registers write-readiness interest. -/
theorem send_partial (s : BufferedSocket) (b : List Byte) (len n : Nat) (env : SendEnv)
    (hq : s.msg_queue = []) (hlen : 0 < len) (hsz : len < SIZE_MOD) (hb : len ≤ b.length)
    (hn : n < len)
    (hres : (env.res.n < 0 ∧ env.res.errno = EWOULDBLOCK ∧ n = 0) ∨
      (0 < env.res.n ∧ env.res.n = (n : Int)))
    (henq : env.enqueue_tail ≠ -1) (hwk : env.schedule_wakeup ≠ -1) :
    (send s (some b) len env).1 = true ∧
    (send s (some b) len env).2.trace = s.trace ++
      [Event.peer_send (b.take len) env.res.n env.res.errno,
       Event.schedule_wakeup_WRITE env.schedule_wakeup] ∧
    (send s (some b) len env).2.wire = s.wire ++ (b.take len).take n ∧
    (send s (some b) len env).2.msg_queue =
      [{ base := b.take len, rd_ptr_ := n, wr_ptr_ := len }] ∧
    (ACE_Message_Block.mk (b.take len) n len).unread = (b.take len).drop n ∧
    (ACE_Message_Block.mk (b.take len) n len).length = len - n ∧
    (send s (some b) len env).2.WRITE_MASK = true := by
  obtain ⟨e1, hc, hl, hat, hun⟩ := ACE_Message_Block.send_block b len hsz hb
  obtain ⟨rc, rrd, rl, run_, rat⟩ := hc.rd_ptr_cursors n (by rw [hl]; omega)
  have hblk : (ACE_Message_Block.mk (b.take len) 0 len).rd_ptr n =
      { base := b.take len, rd_ptr_ := n, wr_ptr_ := len } := by
    simp only [ACE_Message_Block.rd_ptr, Nat.zero_add]
    rw [Nat.mod_eq_of_lt (by omega)]
  rw [hblk] at run_ rl
  rw [hun] at run_
  rw [hl] at rl
  have hsend : send s (some b) len env =
      send_enqueue (s.log (Event.peer_send (b.take len) env.res.n env.res.errno))
        { base := b.take len, rd_ptr_ := n, wr_ptr_ := len } env := by
    rcases hres with ⟨h1, h2, h3⟩ | ⟨h1, h2⟩
    · rw [send_inline_wouldblock s b len env hq hlen hsz hb h1 h2, h3]
    · rw [send_inline_accept s b len n env hq hsz hb h1 h2 (by omega), if_neg (by omega)]
  have hsent : (Event.peer_send (b.take len) env.res.n env.res.errno).sent =
      (b.take len).take n := by
    rcases hres with ⟨h1, h2, h3⟩ | ⟨h1, h2⟩
    · have : env.res.n.toNat = 0 := by omega
      simp only [Event.sent, this, h3]
    · have : env.res.n.toNat = n := by omega
      simp only [Event.sent, this]
  rw [hsend, send_enqueue_ok _ _ _ henq]
  obtain ⟨f1, f2, f3, f4, f5, f6, f7⟩ := schedule_wakeup_facts
    { s.log (Event.peer_send (b.take len) env.res.n env.res.errno) with
      msg_queue := (s.log (Event.peer_send (b.take len) env.res.n env.res.errno)).msg_queue ++
        [{ base := b.take len, rd_ptr_ := n, wr_ptr_ := len }] } env.schedule_wakeup
  refine ⟨by simpa using hwk, ?_, ?_, ?_, run_, rl, f6 hwk⟩
  · rw [f2]; simp [log]
  · rw [f3]
    show (s.log _).wire = _
    rw [wire_log, hsent]
  · rw [f1]
    show s.msg_queue ++ _ = _
    rw [hq]; rfl

/-- Witness of C8 (amended): 3000 bytes sent on an empty queue, 1000 accepted inline: one
fragment of 2000 unsent bytes is queued and write interest is registered. -/
theorem send_partial_witness :
    (send ctor (some (List.replicate 3000 7)) 3000
      { res := accepted 1000, enqueue_tail := 1, schedule_wakeup := 0 }).1 = true ∧
    (send ctor (some (List.replicate 3000 7)) 3000
      { res := accepted 1000, enqueue_tail := 1, schedule_wakeup := 0 }).2.msg_queue =
        [{ base := (List.replicate 3000 7).take 3000, rd_ptr_ := 1000, wr_ptr_ := 3000 }] ∧
    (ACE_Message_Block.mk ((List.replicate 3000 7).take 3000) 1000 3000).length = 2000 ∧
    (send ctor (some (List.replicate 3000 7)) 3000
      { res := accepted 1000, enqueue_tail := 1, schedule_wakeup := 0 }).2.WRITE_MASK = true := by
  have h := send_partial ctor (List.replicate 3000 7) 3000 1000
    { res := accepted 1000, enqueue_tail := 1, schedule_wakeup := 0 }
    rfl (by decide) (by decide) (by rw [List.length_replicate]) (by decide)
    (Or.inr ⟨by decide, rfl⟩) (by decide) (by decide)
  exact ⟨h.1, h.2.2.2.1, h.2.2.2.2.2.1, h.2.2.2.2.2.2⟩

/-- Counterexample to C10 as stated: three bytes are sent behind a queued
fragment and the queue insertion reports `-1`: `send` returns false and the
queue is the old one, no fragment having been appended.  An empty payload
sent behind a queued fragment appends no fragment either, the queue
insertion not being attempted. -/
theorem send_queued_enqueue_failure_counterexample :
    (send { ctor with msg_queue := [{ base := [1, 2], rd_ptr_ := 1, wr_ptr_ := 2 }] }
      (some [7, 8, 9]) 3
      { res := accepted 3, enqueue_tail := -1, schedule_wakeup := 0 }).1 = false ∧
    (send { ctor with msg_queue := [{ base := [1, 2], rd_ptr_ := 1, wr_ptr_ := 2 }] }
      (some [7, 8, 9]) 3
      { res := accepted 3, enqueue_tail := -1, schedule_wakeup := 0 }).2.msg_queue =
      [{ base := [1, 2], rd_ptr_ := 1, wr_ptr_ := 2 }] ∧
    (send { ctor with msg_queue := [{ base := [1, 2], rd_ptr_ := 1, wr_ptr_ := 2 }] }
      (some [7, 8, 9]) 0
      { res := accepted 3, enqueue_tail := 2, schedule_wakeup := 0 }).2.msg_queue =
      [{ base := [1, 2], rd_ptr_ := 1, wr_ptr_ := 2 }] := by
  decide

/-- C10 (amended): a non-empty payload sent while the queue is not empty, the
queue insertion (`enqueue_tail`) succeeding: `send` makes no transport call (its only external call
is the reactor wake-up request, the wire is unchanged) and appends at the tail
of the queue one fragment holding the whole payload with nothing marked sent,
every earlier fragment staying in place. -/
theorem send_queued (s : BufferedSocket) (b : List Byte) (len : Nat) (env : SendEnv)
    (hq : s.msg_queue ≠ []) (hlen : 0 < len) (hsz : len < SIZE_MOD) (hb : len ≤ b.length)
    (henq : env.enqueue_tail ≠ -1) :
    (send s (some b) len env).2.trace =
      s.trace ++ [Event.schedule_wakeup_WRITE env.schedule_wakeup] ∧
    (send s (some b) len env).2.wire = s.wire ∧
    (send s (some b) len env).2.msg_queue =
      s.msg_queue ++ [{ base := b.take len, rd_ptr_ := 0, wr_ptr_ := len }] ∧
    (ACE_Message_Block.mk (b.take len) 0 len).unread = b.take len ∧
    (ACE_Message_Block.mk (b.take len) 0 len).length = len ∧
    (b.take len).length = len := by
  obtain ⟨e1, hc, hl, hat, hun⟩ := ACE_Message_Block.send_block b len hsz hb
  rw [send_backlog s b len env hq hlen hsz hb, send_enqueue_ok _ _ _ henq]
  obtain ⟨f1, f2, f3, f4, f5, f6, f7⟩ := schedule_wakeup_facts
    { s with msg_queue := s.msg_queue ++
        [{ base := b.take len, rd_ptr_ := 0, wr_ptr_ := len }] } env.schedule_wakeup
  refine ⟨f2, f3, f1, hun, hl, ?_⟩
  simp [hb]

/-- Witness of C10 (amended): three bytes sent behind a queued fragment are appended whole,
with no byte put on the wire. -/
theorem send_queued_witness :
    (send { ctor with msg_queue := [{ base := [1, 2], rd_ptr_ := 1, wr_ptr_ := 2 }] }
      (some [7, 8, 9]) 3 { res := accepted 3, enqueue_tail := 2, schedule_wakeup := 0 }).2.msg_queue
      = [{ base := [1, 2], rd_ptr_ := 1, wr_ptr_ := 2 },
         { base := [7, 8, 9], rd_ptr_ := 0, wr_ptr_ := 3 }] ∧
    (send { ctor with msg_queue := [{ base := [1, 2], rd_ptr_ := 1, wr_ptr_ := 2 }] }
      (some [7, 8, 9]) 3 { res := accepted 3, enqueue_tail := 2, schedule_wakeup := 0 }).2.wire
      = [] :=
  ⟨(send_queued { ctor with msg_queue := [{ base := [1, 2], rd_ptr_ := 1, wr_ptr_ := 2 }] }
      [7, 8, 9] 3 { res := accepted 3, enqueue_tail := 2, schedule_wakeup := 0 }
      (by decide) (by decide) (by decide) (by decide) (by decide)).2.2.1,
   (send_queued { ctor with msg_queue := [{ base := [1, 2], rd_ptr_ := 1, wr_ptr_ := 2 }] }
      [7, 8, 9] 3 { res := accepted 3, enqueue_tail := 2, schedule_wakeup := 0 }
      (by decide) (by decide) (by decide) (by decide) (by decide)).2.1⟩

/-! ## Teardown -/

/-- Counterexample to C2 as stated: a second `close_connection` is not a no-op;
it repeats `close_reader`, `close_writer` and `remove_handler`, so the trace
after two calls differs from the trace after one and the extra calls touch
the transport. -/
theorem close_connection_twice_counterexample :
    (close_connection (close_connection sample)).trace ≠ (close_connection sample).trace ∧
    (close_connection (close_connection sample)).trace =
      (close_connection sample).trace ++
        [Event.close_reader, Event.close_writer, Event.remove_handler] ∧
    ((close_connection (close_connection sample)).trace.drop
      (close_connection sample).trace.length).any Event.isTransport = true := by
  decide

/-- C2 (amended): every `close_connection` call, in every state, calls
`close_reader`, `close_writer` and `remove_handler` in that order and leaves
read and write interest deregistered, changing nothing else; a second call
repeats the same three calls and, apart from the trace, leaves the socket as
the first call left it. -/
theorem close_connection_spec (s : BufferedSocket) :
    (close_connection s).trace =
      s.trace ++ [Event.close_reader, Event.close_writer, Event.remove_handler] ∧
    close_connection s =
      { s with READ_MASK := false, WRITE_MASK := false, trace := (close_connection s).trace } ∧
    (close_connection (close_connection s)).trace =
      (close_connection s).trace ++
        [Event.close_reader, Event.close_writer, Event.remove_handler] ∧
    close_connection (close_connection s) =
      { close_connection s with trace := (close_connection (close_connection s)).trace } := by
  simp [close_connection, log]

end BufferedSocket

namespace BufferedSocket

/-! ## Send path: failure classes and fragment invariants -/

/-- Closed form of `noblk_send` when the transport reports a fatal result. -/
theorem noblk_send_fatal (s : BufferedSocket) (mb : ACE_Message_Block) (res : SendResult)
    (hl : mb.length ≠ 0) (hf : res.fatal) :
    noblk_send s mb res =
      (-1, s.log (Event.peer_send (mb.at_rd.take mb.length) res.n res.errno)) := by
  unfold noblk_send
  rcases hf with ⟨h1, h2⟩ | h1
  · simp [hl, h1, h2]
  · simp [hl, h1]

/-- Closed form of `send` when the queue is not empty, whatever the buffer
holds. -/
theorem send_backlog_any (s : BufferedSocket) (b : List Byte) (len : Nat) (env : SendEnv)
    (hq : s.msg_queue ≠ []) (hlen : 0 < len) :
    send s (some b) len env =
      send_enqueue s
        (ACE_Message_Block.wr_ptr { base := b.take len, rd_ptr_ := 0, wr_ptr_ := 0 } len)
        env := by
  unfold send
  have h0 : ¬ len = 0 := by omega
  have hq2 : s.msg_queue.isEmpty = false := by
    cases hm : s.msg_queue with
    | nil => exact absurd hm hq
    | cons a l => rfl
  simp only [h0, if_false, hq2, Bool.false_eq_true]

theorem send_block_length (b : List Byte) (len : Nat) (h1 : len < SIZE_MOD) :
    (ACE_Message_Block.wr_ptr { base := b.take len, rd_ptr_ := 0, wr_ptr_ := 0 } len).length =
      len ∧
    (ACE_Message_Block.wr_ptr { base := b.take len, rd_ptr_ := 0, wr_ptr_ := 0 } len).at_rd =
      b.take len := by
  refine ⟨?_, rfl⟩
  simp only [ACE_Message_Block.wr_ptr, ACE_Message_Block.length, SIZE_MOD] at *
  omega

/-- Closed form of `send` when the queue is empty and the inline write is
fatal. -/
theorem send_inline_fatal (s : BufferedSocket) (b : List Byte) (len : Nat) (env : SendEnv)
    (hq : s.msg_queue = []) (hlen : 0 < len) (hsz : len < SIZE_MOD) (hf : env.res.fatal) :
    send s (some b) len env =
      (false, s.log (Event.peer_send ((b.take len).take len) env.res.n env.res.errno)) := by
  obtain ⟨hl, hat⟩ := send_block_length b len hsz
  unfold send
  have h0 : ¬ len = 0 := by omega
  simp only [h0, if_false, hq, List.isEmpty_nil, if_true]
  rw [noblk_send_fatal _ _ _ (by rw [hl]; exact h0) hf, hl, hat]
  simp

/-- Closed form of `send` when the queue is empty and the inline write accepts
all `len` bytes. -/
theorem send_inline_full (s : BufferedSocket) (b : List Byte) (len : Nat) (env : SendEnv)
    (hq : s.msg_queue = []) (hlen : 0 < len) (hsz : len < SIZE_MOD)
    (hn : env.res.n = (len : Int)) :
    send s (some b) len env =
      (true, s.log (Event.peer_send ((b.take len).take len) env.res.n env.res.errno)) := by
  obtain ⟨hl, hat⟩ := send_block_length b len hsz
  unfold send
  have h0 : ¬ len = 0 := by omega
  simp only [h0, if_false, hq, List.isEmpty_nil, if_true]
  rw [noblk_send_accept _ _ _ (by rw [hl]; exact h0) (by omega), hl, hat]
  have h1 : ¬ env.res.n < 0 := by omega
  dsimp only
  rw [if_neg h1, if_pos hn]

/-- With the queue insertion and the wake-up registration succeeding, the
enqueueing tail of `send` returns true. -/
theorem send_enqueue_true (t : BufferedSocket) (mb : ACE_Message_Block) (env : SendEnv)
    (henq : env.enqueue_tail ≠ -1) (hwk : env.schedule_wakeup ≠ -1) :
    (send_enqueue t mb env).1 = true := by
  rw [send_enqueue_ok _ _ _ henq]
  simpa using hwk

theorem SendResult_cases (res : SendResult) :
    res.fatal ∨ (res.n < 0 ∧ res.errno = EWOULDBLOCK) ∨ 0 < res.n := by
  unfold SendResult.fatal
  by_cases h1 : 0 < res.n
  · exact Or.inr (Or.inr h1)
  · by_cases h2 : res.n = 0
    · exact Or.inl (Or.inr h2)
    · by_cases h3 : res.errno = EWOULDBLOCK
      · exact Or.inr (Or.inl ⟨by omega, h3⟩)
      · exact Or.inl (Or.inl ⟨by omega, h3⟩)

/-- Closed form of `handle_output` when the write is fatal: the dequeued head
fragment is discarded. -/
theorem handle_output_fatal (s : BufferedSocket) (env : OutputEnv)
    (mb : ACE_Message_Block) (rest : List ACE_Message_Block)
    (hm : s.msg_queue = mb :: rest) (hd : env.dequeue_head ≠ -1) (hl : mb.length ≠ 0)
    (hf : env.res.fatal) :
    handle_output s env =
      (-1, { s with
               msg_queue := rest
               trace := s.trace ++ [Event.peer_send mb.unread env.res.n env.res.errno] }) := by
  unfold handle_output
  rw [hm]
  simp only [hd, if_false]
  rw [noblk_send_fatal _ _ _ hl hf]
  simp [log, ACE_Message_Block.unread]

/-- Closed form of `handle_output` when the write accepts the whole remainder of
the head fragment. -/
theorem handle_output_full (s : BufferedSocket) (env : OutputEnv)
    (mb : ACE_Message_Block) (rest : List ACE_Message_Block)
    (hm : s.msg_queue = mb :: rest) (hd : env.dequeue_head ≠ -1) (hl : mb.length ≠ 0)
    (hn : env.res.n = (mb.length : Int)) :
    handle_output s env =
      (1, { s with
              msg_queue := rest
              trace := s.trace ++ [Event.peer_send mb.unread env.res.n env.res.errno] }) := by
  unfold handle_output
  rw [hm]
  simp only [hd, if_false]
  rw [noblk_send_accept _ _ _ hl (by omega)]
  have h1 : ¬ env.res.n < 0 := by omega
  dsimp only
  rw [if_neg h1, if_pos hn]
  simp [log, ACE_Message_Block.unread]

/-- Closed form of `handle_output` when the write leaves `k < length` bytes
short of the head fragment's remainder (`k = 0` on would-block): the fragment
goes back to the head unless `enqueue_head` reports `-1`. -/
theorem handle_output_requeue (s : BufferedSocket) (env : OutputEnv)
    (mb : ACE_Message_Block) (rest : List ACE_Message_Block) (k : Nat)
    (hm : s.msg_queue = mb :: rest) (hd : env.dequeue_head ≠ -1) (hk : k < mb.length)
    (hres : (env.res.n < 0 ∧ env.res.errno = EWOULDBLOCK ∧ k = 0) ∨
      (0 < env.res.n ∧ env.res.n = (k : Int))) :
    handle_output s env =
      if env.enqueue_head = -1 then
        (-1, { s with
                 msg_queue := rest
                 trace := s.trace ++ [Event.peer_send mb.unread env.res.n env.res.errno] })
      else
        (0, { s with
                msg_queue := mb.rd_ptr k :: rest
                trace := s.trace ++ [Event.peer_send mb.unread env.res.n env.res.errno] }) := by
  have hl : mb.length ≠ 0 := by omega
  have hlt : mb.length < SIZE_MOD := Nat.mod_lt _ (by decide)
  unfold handle_output
  rw [hm]
  simp only [hd, if_false]
  rcases hres with ⟨h1, h2, h3⟩ | ⟨h1, h2⟩
  · subst h3
    rw [noblk_send_wouldblock _ _ _ hl h1 h2]
    have h3 : ¬ ((0 : Int) = (mb.length : Int)) := by omega
    have h4 : to_size_t 0 = 0 := by decide
    dsimp only
    rw [if_neg (lt_irrefl _), if_neg h3, h4]
    by_cases hq : env.enqueue_head = -1
    · rw [if_pos hq, if_pos hq]; simp [log, ACE_Message_Block.unread]
    · rw [if_neg hq, if_neg hq]; simp [log, ACE_Message_Block.unread]
  · rw [noblk_send_accept _ _ _ hl h1]
    have h3 : ¬ env.res.n < 0 := by omega
    have h4 : ¬ env.res.n = (mb.length : Int) := by omega
    have h5 : to_size_t env.res.n = k := by
      rw [to_size_t_of_nonneg (by omega) (by omega), h2]; simp
    dsimp only
    rw [if_neg h3, if_neg h4, h5]
    by_cases hq : env.enqueue_head = -1
    · rw [if_pos hq, if_pos hq]; simp [log, ACE_Message_Block.unread]
    · rw [if_neg hq, if_neg hq]; simp [log, ACE_Message_Block.unread]

/-- The outcomes of `handle_output` on a queue whose head fragment is not empty,
the transport reporting at most what was offered. -/
theorem handle_output_cases (s : BufferedSocket) (env : OutputEnv)
    (mb : ACE_Message_Block) (rest : List ACE_Message_Block)
    (hm : s.msg_queue = mb :: rest) (hl : mb.length ≠ 0)
    (hb : env.res.n ≤ (mb.length : Int)) :
    handle_output s env = (-1, s) ∨
    handle_output s env =
      (-1, { s with
               msg_queue := rest
               trace := s.trace ++ [Event.peer_send mb.unread env.res.n env.res.errno] }) ∨
    (env.res.n = (mb.length : Int) ∧
      handle_output s env =
        (1, { s with
                msg_queue := rest
                trace := s.trace ++ [Event.peer_send mb.unread env.res.n env.res.errno] })) ∨
    (∃ k : Nat, k < mb.length ∧
      ((env.res.n < 0 ∧ env.res.errno = EWOULDBLOCK ∧ k = 0) ∨
        (0 < env.res.n ∧ env.res.n = (k : Int))) ∧
      handle_output s env =
        (0, { s with
                msg_queue := mb.rd_ptr k :: rest
                trace := s.trace ++ [Event.peer_send mb.unread env.res.n env.res.errno] })) := by
  by_cases hd : env.dequeue_head = -1
  · left
    exact handle_output_dequeue_fail s env (by rw [hm]; exact List.cons_ne_nil _ _) hd
  · rcases SendResult_cases env.res with hf | ⟨h1, h2⟩ | h1
    · right; left
      exact handle_output_fatal s env mb rest hm hd hl hf
    · have hk : 0 < mb.length := by omega
      have := handle_output_requeue s env mb rest 0 hm hd hk (Or.inl ⟨h1, h2, rfl⟩)
      by_cases hq : env.enqueue_head = -1
      · right; left; rw [this, if_pos hq]
      · right; right; right
        exact ⟨0, hk, Or.inl ⟨h1, h2, rfl⟩, by rw [this, if_neg hq]⟩
    · by_cases hn : env.res.n = (mb.length : Int)
      · right; right; left
        exact ⟨hn, handle_output_full s env mb rest hm hd hl hn⟩
      · obtain ⟨k, hk⟩ : ∃ k : Nat, env.res.n = (k : Int) := ⟨env.res.n.toNat, by omega⟩
        have hk2 : k < mb.length := by omega
        have := handle_output_requeue s env mb rest k hm hd hk2 (Or.inr ⟨h1, hk⟩)
        by_cases hq : env.enqueue_head = -1
        · right; left; rw [this, if_pos hq]
        · right; right; right
          exact ⟨k, hk2, Or.inr ⟨h1, hk⟩, by rw [this, if_neg hq]⟩

theorem Live_rd_ptr {mb : ACE_Message_Block} (h : mb.Live) (k : Nat) (hk : k < mb.length) :
    (mb.rd_ptr k).Live := by
  obtain ⟨c1, c2, c3, c4, c5⟩ := h.1.rd_ptr_cursors k (Nat.le_of_lt hk)
  exact ⟨c1, by rw [c3]; omega⟩

/-- One `handle_output` call keeps every queued fragment live. -/
theorem handle_output_live (s : BufferedSocket) (env : OutputEnv)
    (hinv : ∀ mb ∈ s.msg_queue, mb.Live) (hb : (Call.handle_output env).bounded s) :
    ∀ mb ∈ (handle_output s env).2.msg_queue, mb.Live := by
  cases hm : s.msg_queue with
  | nil =>
    rw [handle_output_nil s env hm]
    show ∀ mb ∈ s.msg_queue, mb.Live
    exact hinv
  | cons mb rest =>
    have hmb : mb.Live := hinv mb (by rw [hm]; exact List.mem_cons_self _ _)
    have hrest : ∀ x ∈ rest, x.Live := fun x hx =>
      hinv x (by rw [hm]; exact List.mem_cons_of_mem _ hx)
    have hb2 : env.res.n ≤ (mb.length : Int) := hb mb (by rw [hm]; rfl)
    rcases handle_output_cases s env mb rest hm hmb.2 hb2 with h | h | ⟨_, h⟩ | ⟨k, hk, _, h⟩
    · rw [h]; exact hinv
    · rw [h]; exact hrest
    · rw [h]; exact hrest
    · rw [h]
      intro x hx
      rcases List.mem_cons.1 hx with hx | hx
      · rw [hx]; exact Live_rd_ptr hmb k hk
      · exact hrest x hx

theorem send_enqueue_queue (t : BufferedSocket) (mb : ACE_Message_Block) (env : SendEnv) :
    (send_enqueue t mb env).2.msg_queue = t.msg_queue ∨
    (send_enqueue t mb env).2.msg_queue = t.msg_queue ++ [mb] := by
  by_cases he : env.enqueue_tail = -1
  · left; simp [send_enqueue, he]
  · right
    rw [send_enqueue_ok _ _ _ he]
    exact (schedule_wakeup_facts _ _).1

/-- One `send` call keeps every queued fragment live. -/
theorem send_live (s : BufferedSocket) (buf : Option (List Byte)) (len : Nat) (env : SendEnv)
    (hinv : ∀ mb ∈ s.msg_queue, mb.Live) (hb : (Call.send buf len env).bounded s) :
    ∀ mb ∈ (send s buf len env).2.msg_queue, mb.Live := by
  obtain ⟨hargs, hbound⟩ := hb
  cases buf with
  | none => exact hinv
  | some b =>
    obtain ⟨hsz, hlb⟩ := hargs
    by_cases h0 : len = 0
    · subst h0; exact hinv
    · have hlen : 0 < len := by omega
      obtain ⟨e1, hc, hl, hat, hun⟩ := ACE_Message_Block.send_block b len hsz hlb
      have enq : ∀ (t : BufferedSocket) (mb : ACE_Message_Block), mb.Live →
          t.msg_queue = s.msg_queue →
          ∀ x ∈ (send_enqueue t mb env).2.msg_queue, x.Live := by
        intro t mb hmb ht x hx
        rcases send_enqueue_queue t mb env with h | h
        · rw [h, ht] at hx; exact hinv x hx
        · rw [h, ht] at hx
          rcases List.mem_append.1 hx with hx | hx
          · exact hinv x hx
          · rw [List.mem_singleton.1 hx]; exact hmb
      have hwhole : (ACE_Message_Block.mk (b.take len) 0 len).Live := ⟨hc, by rw [hl]; exact h0⟩
      by_cases hq : s.msg_queue = []
      · rcases SendResult_cases env.res with hf | ⟨h1, h2⟩ | h1
        · rw [send_inline_fatal s b len env hq hlen hsz hf]
          exact hinv
        · rw [send_inline_wouldblock s b len env hq hlen hsz hlb h1 h2]
          exact enq _ _ hwhole rfl
        · obtain ⟨n, hn⟩ : ∃ n : Nat, env.res.n = (n : Int) := ⟨env.res.n.toNat, by omega⟩
          have hle : n ≤ len := by have := hbound hq; omega
          rw [send_inline_accept s b len n env hq hsz hlb h1 hn hle]
          by_cases hcn : n = len
          · rw [if_pos hcn]; exact hinv
          · rw [if_neg hcn]
            have hlive := Live_rd_ptr hwhole n (by rw [hl]; omega)
            have hblk : (ACE_Message_Block.mk (b.take len) 0 len).rd_ptr n =
                { base := b.take len, rd_ptr_ := n, wr_ptr_ := len } := by
              simp only [ACE_Message_Block.rd_ptr, Nat.zero_add]
              rw [Nat.mod_eq_of_lt (by omega)]
            rw [hblk] at hlive
            exact enq _ _ hlive rfl
      · rw [send_backlog s b len env hq hlen hsz hlb]
        exact enq s _ hwhole rfl

/-- Along every run in which the transport never reports more than it was
offered, every queued fragment stays live. -/
theorem run_live (cs : List Call) (s : BufferedSocket)
    (hinv : ∀ mb ∈ s.msg_queue, mb.Live) (hb : runBounded s cs) :
    ∀ mb ∈ (run s cs).msg_queue, mb.Live := by
  induction cs generalizing s with
  | nil => exact hinv
  | cons c cs ih =>
    obtain ⟨hc, hrest⟩ := hb
    apply ih (c.step s) _ hrest
    cases c with
    | send buf len env => exact send_live s buf len env hinv hc
    | handle_output env => exact handle_output_live s env hinv hc

/-- A `noblk_send` call on a non-empty block logs exactly one transport write
of the whole unsent remainder and touches nothing else. -/
theorem noblk_send_state (t : BufferedSocket) (mb : ACE_Message_Block) (res : SendResult)
    (hl : mb.length ≠ 0) :
    (noblk_send t mb res).2 = t.log (Event.peer_send mb.unread res.n res.errno) := by
  rcases SendResult_cases res with hf | ⟨h1, h2⟩ | h1
  · rw [noblk_send_fatal t mb res hl hf]; rfl
  · rw [noblk_send_wouldblock t mb res hl h1 h2]; rfl
  · rw [noblk_send_accept t mb res hl h1]; rfl

/-- Whatever the environment answers, a `handle_output` call that dequeues a
non-empty head fragment makes exactly one transport write, of that fragment's
unsent remainder. -/
theorem handle_output_trace (s : BufferedSocket) (env : OutputEnv)
    (mb : ACE_Message_Block) (rest : List ACE_Message_Block)
    (hm : s.msg_queue = mb :: rest) (hd : env.dequeue_head ≠ -1) (hl : mb.length ≠ 0) :
    (handle_output s env).2.trace =
      s.trace ++ [Event.peer_send mb.unread env.res.n env.res.errno] := by
  unfold handle_output
  rw [hm]
  simp only [hd, if_false]
  have hst := noblk_send_state { s with msg_queue := rest } mb env.res hl
  generalize noblk_send { s with msg_queue := rest } mb env.res = r at hst ⊢
  obtain ⟨n, t⟩ := r
  simp only at hst ⊢
  subst hst
  by_cases h1 : n < 0
  · rw [if_pos h1]; rfl
  · rw [if_neg h1]
    by_cases h2 : n = (mb.length : Int)
    · rw [if_pos h2]; rfl
    · rw [if_neg h2]
      by_cases h3 : env.enqueue_head = -1
      · rw [if_pos h3]; rfl
      · rw [if_neg h3]; rfl

theorem send_enqueue_trace (t : BufferedSocket) (mb : ACE_Message_Block) (env : SendEnv) :
    ∃ tl, (send_enqueue t mb env).2.trace = t.trace ++ tl := by
  by_cases he : env.enqueue_tail = -1
  · exact ⟨[], by simp [send_enqueue, he]⟩
  · rw [send_enqueue_ok _ _ _ he]
    exact ⟨_, (schedule_wakeup_facts _ _).2.1⟩

/-- Whatever the environment answers, a `send` of a non-empty payload on an
empty queue starts with one transport write of the whole payload. -/
theorem send_trace (s : BufferedSocket) (b : List Byte) (len : Nat) (env : SendEnv)
    (hq : s.msg_queue = []) (hlen : 0 < len) (hsz : len < SIZE_MOD) :
    ∃ tl, (send s (some b) len env).2.trace =
      s.trace ++ Event.peer_send (b.take len) env.res.n env.res.errno :: tl := by
  obtain ⟨hl, hat⟩ := send_block_length b len hsz
  have h0 : ¬ len = 0 := by omega
  have hst := noblk_send_state s
    (ACE_Message_Block.wr_ptr { base := b.take len, rd_ptr_ := 0, wr_ptr_ := 0 } len) env.res
    (by rw [hl]; exact h0)
  have hun : (ACE_Message_Block.wr_ptr { base := b.take len, rd_ptr_ := 0, wr_ptr_ := 0 }
      len).unread = b.take len := by
    unfold ACE_Message_Block.unread
    rw [hl, hat, List.take_take, Nat.min_self]
  rw [hun] at hst
  unfold send
  simp only [h0, if_false, hq, List.isEmpty_nil, if_true]
  generalize ACE_Message_Block.wr_ptr { base := b.take len, rd_ptr_ := 0, wr_ptr_ := 0 }
    len = mb at hst ⊢
  generalize noblk_send s mb env.res = r at hst ⊢
  obtain ⟨n, t⟩ := r
  simp only at hst ⊢
  subst hst
  by_cases h1 : n < 0
  · rw [if_pos h1]; exact ⟨[], rfl⟩
  · rw [if_neg h1]
    by_cases h2 : n = (len : Int)
    · rw [if_pos h2]; exact ⟨[], rfl⟩
    · rw [if_neg h2]
      obtain ⟨tl, htl⟩ := send_enqueue_trace
        (s.log (Event.peer_send (b.take len) env.res.n env.res.errno))
        (mb.rd_ptr (to_size_t n)) env
      refine ⟨tl, ?_⟩
      rw [htl]
      simp [log]

theorem pending_length_of_queue (s : BufferedSocket) (mb : ACE_Message_Block)
    (rest : List ACE_Message_Block) (hm : s.msg_queue = mb :: rest) :
    s.pending.length =
      mb.unread.length + ({ s with msg_queue := rest } : BufferedSocket).pending.length := by
  rw [pending_of_queue s mb rest hm, List.length_append]

/-- A `handle_output` call whose write accepts `n > 0` bytes of a live head
fragment, the queue operations succeeding, does not close and takes exactly
`n` bytes off the unsent total. -/
theorem handle_output_progress (s : BufferedSocket) (env : OutputEnv)
    (mb : ACE_Message_Block) (rest : List ACE_Message_Block)
    (hm : s.msg_queue = mb :: rest) (hmb : mb.Live)
    (hd : env.dequeue_head ≠ -1) (hq : env.enqueue_head ≠ -1)
    (hn : 0 < env.res.n) (hle : env.res.n ≤ (mb.length : Int)) :
    (handle_output s env).2.pending.length + env.res.n.toNat = s.pending.length ∧
    (handle_output s env).1 ≠ -1 := by
  have hpl := pending_length_of_queue s mb rest hm
  have hlu := hmb.1.length_unread
  by_cases hfull : env.res.n = (mb.length : Int)
  · rw [handle_output_full s env mb rest hm hd hmb.2 hfull]
    refine ⟨?_, show ((1 : Int) ≠ -1) by decide⟩
    show (BufferedSocket.pending _).length + _ = _
    rw [hpl, hlu]
    have : ({ s with msg_queue := rest, trace := s.trace ++
        [Event.peer_send mb.unread env.res.n env.res.errno] } : BufferedSocket).pending =
        ({ s with msg_queue := rest } : BufferedSocket).pending := rfl
    rw [this]
    omega
  · obtain ⟨k, hk⟩ : ∃ k : Nat, env.res.n = (k : Int) := ⟨env.res.n.toNat, by omega⟩
    have hk2 : k < mb.length := by omega
    obtain ⟨c1, c2, c3, c4, c5⟩ := hmb.1.rd_ptr_cursors k (Nat.le_of_lt hk2)
    rw [handle_output_requeue s env mb rest k hm hd hk2 (Or.inr ⟨hn, hk⟩), if_neg hq]
    refine ⟨?_, show ((0 : Int) ≠ -1) by decide⟩
    show (BufferedSocket.pending _).length + _ = _
    rw [hpl, hlu]
    have : ({ s with msg_queue := mb.rd_ptr k :: rest, trace := s.trace ++
        [Event.peer_send mb.unread env.res.n env.res.errno] } : BufferedSocket).pending =
        (mb.rd_ptr k).unread ++ ({ s with msg_queue := rest } : BufferedSocket).pending := by
      simp [pending]
    rw [this, List.length_append, c1.length_unread, c3]
    omega

/-- Over a transport that accepts a nonzero chunk on every attempt, a queue of
live fragments holding at most as many unsent bytes as there are calls is
drained, and no call returns the close outcome. -/
theorem drain_live (envs : List OutputEnv) (s : BufferedSocket)
    (hinv : ∀ mb ∈ s.msg_queue, mb.Live) (hok : drainOk s envs)
    (hB : s.pending.length ≤ envs.length) :
    (drain s envs).msg_queue = [] ∧ ∀ r ∈ drainResults s envs, r ≠ -1 := by
  induction envs generalizing s with
  | nil =>
    refine ⟨?_, by intro r hr; cases hr⟩
    show s.msg_queue = []
    cases hm : s.msg_queue with
    | nil => rfl
    | cons mb rest =>
      have hmb : mb.Live := hinv mb (by rw [hm]; exact List.mem_cons_self _ _)
      have hpl := pending_length_of_queue s mb rest hm
      have hlu := hmb.1.length_unread
      have h2 := hmb.2
      simp only [List.length_nil] at hB
      omega
  | cons e es ih =>
    obtain ⟨⟨hd, hq, hacc⟩, hrest⟩ := hok
    cases hm : s.msg_queue with
    | nil =>
      have hstep := handle_output_nil s e hm
      have hq2 : (handle_output s e).2.msg_queue = [] := by rw [hstep]; exact hm
      have hp2 : (handle_output s e).2.pending = [] := by simp [pending, hq2]
      have := ih (handle_output s e).2 (by rw [hq2]; intro mb hmb; cases hmb) hrest
        (by rw [hp2]; exact Nat.zero_le _)
      refine ⟨this.1, ?_⟩
      intro r hr
      rcases List.mem_cons.1 hr with h | h
      · rw [h, hstep]; exact (show ((0 : Int) ≠ -1) by decide)
      · exact this.2 r h
    | cons mb rest =>
      have hmb : mb.Live := hinv mb (by rw [hm]; exact List.mem_cons_self _ _)
      obtain ⟨hn, hle⟩ := hacc mb (by rw [hm]; rfl)
      obtain ⟨hprog, hne⟩ := handle_output_progress s e mb rest hm hmb hd hq hn hle
      have hlive := handle_output_live s e hinv (by
        intro x hx
        rw [hm] at hx
        have : x = mb := by simpa using hx.symm
        rw [this]; exact hle)
      have := ih (handle_output s e).2 hlive hrest (by
        simp only [List.length_cons] at hB
        omega)
      refine ⟨this.1, ?_⟩
      intro r hr
      rcases List.mem_cons.1 hr with h | h
      · rw [h]; exact hne
      · exact this.2 r h

/-! ## Send path: further claims -/

/-- Counterexample to C9 as stated: after the drain scenario (3000 bytes, 1000
accepted inline, then 800 and 1200 accepted by two `handle_output` calls) the
queue is empty while write interest is still registered. -/
theorem write_interest_iff_queue_counterexample :
    (run ctor drainScenario).msg_queue = [] ∧ (run ctor drainScenario).WRITE_MASK = true ∧
    ¬ ((run ctor drainScenario).WRITE_MASK = true ↔ (run ctor drainScenario).msg_queue ≠ []) := by
  decide

/-- C9 (amended): along every run of `send` and `handle_output` calls on a fresh
socket whose wake-up registrations succeed, write interest is registered
whenever the queue is not empty; a `handle_output` call entered with a
non-empty queue leaves it registered (also the call that sends the last queued
byte), and a `handle_output` call entered with an empty queue cancels it,
returns 0 and makes no other external call.  The `handle_output` call whose
write accepts the whole remainder of the head fragment returns 1, takes that
fragment off the queue and leaves write interest registered. -/
theorem write_interest_tracks_queue (cs : List Call) (env : OutputEnv)
    (hw : ∀ c ∈ cs, c.wakes) :
    ((run ctor cs).msg_queue ≠ [] → (run ctor cs).WRITE_MASK = true) ∧
    ((run ctor cs).msg_queue ≠ [] →
      (handle_output (run ctor cs) env).2.WRITE_MASK = true) ∧
    ((run ctor cs).msg_queue = [] →
      (handle_output (run ctor cs) env).1 = 0 ∧
      (handle_output (run ctor cs) env).2.WRITE_MASK = false ∧
      (handle_output (run ctor cs) env).2.msg_queue = [] ∧
      (handle_output (run ctor cs) env).2.trace =
        (run ctor cs).trace ++ [Event.cancel_wakeup_WRITE]) ∧
    (∀ (mb : ACE_Message_Block) (rest : List ACE_Message_Block),
      (run ctor cs).msg_queue = mb :: rest → env.dequeue_head ≠ -1 →
      0 < env.res.n → env.res.n = (mb.length : Int) →
      (handle_output (run ctor cs) env).1 = 1 ∧
      (handle_output (run ctor cs) env).2.msg_queue = rest ∧
      (handle_output (run ctor cs) env).2.WRITE_MASK = true) := by
  have hinv := run_WRITE_MASK cs ctor (fun h => absurd rfl h) hw
  refine ⟨hinv, ?_, ?_, ?_⟩
  · intro hq
    rw [handle_output_WRITE_MASK, if_neg hq]
    exact hinv hq
  · intro hq
    rw [handle_output_nil _ env hq]
    exact ⟨rfl, rfl, hq, rfl⟩
  · intro mb rest hm hd hpos hn
    have hq : (run ctor cs).msg_queue ≠ [] := by rw [hm]; exact List.cons_ne_nil _ _
    have hl : mb.length ≠ 0 := by omega
    have hmask : (handle_output (run ctor cs) env).2.WRITE_MASK = true := by
      rw [handle_output_WRITE_MASK, if_neg hq]
      exact hinv hq
    refine ⟨?_, ?_, hmask⟩
    · rw [handle_output_full _ env mb rest hm hd hl hn]
    · rw [handle_output_full _ env mb rest hm hd hl hn]

/-- Witness of C9 (amended): after the drain scenario the queue is empty and
write interest still registered; one more `handle_output` call returns 0 and
cancels it.  On a queue holding the fragment `1, 2, 3`, the call whose write
accepts the three bytes returns 1 and leaves write interest registered. -/
theorem write_interest_tracks_queue_witness :
    (run ctor drainScenario).msg_queue = [] ∧
    (run ctor drainScenario).WRITE_MASK = true ∧
    (handle_output (run ctor drainScenario)
      { res := accepted 1, dequeue_head := 0, enqueue_head := 0 }).1 = 0 ∧
    (handle_output (run ctor drainScenario)
      { res := accepted 1, dequeue_head := 0, enqueue_head := 0 }).2.WRITE_MASK = false ∧
    (handle_output (run ctor queuedRun)
      { res := accepted 3, dequeue_head := 0, enqueue_head := 0 }).1 = 1 ∧
    (handle_output (run ctor queuedRun)
      { res := accepted 3, dequeue_head := 0, enqueue_head := 0 }).2.msg_queue = [] ∧
    (handle_output (run ctor queuedRun)
      { res := accepted 3, dequeue_head := 0, enqueue_head := 0 }).2.WRITE_MASK = true :=
  ⟨by decide, by decide,
   ((write_interest_tracks_queue drainScenario
      { res := accepted 1, dequeue_head := 0, enqueue_head := 0 } (by decide)).2.2.1
      (by decide)).1,
   ((write_interest_tracks_queue drainScenario
      { res := accepted 1, dequeue_head := 0, enqueue_head := 0 } (by decide)).2.2.1
      (by decide)).2.1,
   (write_interest_tracks_queue queuedRun
      { res := accepted 3, dequeue_head := 0, enqueue_head := 0 } (by decide)).2.2.2
      ⟨[1, 2, 3], 0, 3⟩ [] (by decide) (by decide) (by decide) (by decide)⟩

/-- C11: `noblk_send` on a fragment makes at most one transport write: none for
an empty fragment, for which it returns the fatal signal `-1`, and otherwise
exactly one write of the fragment's whole unsent remainder.  It returns `n`
when the transport accepted `n > 0` bytes, `0` when the transport signalled
would-block (a negative result with errno `EWOULDBLOCK`), and `-1` for any
other negative result and for a zero-byte result.  The result is `0` exactly
when a write was made and answered by would-block, so never for a write that
made progress. -/
theorem noblk_send_spec (s : BufferedSocket) (mb : ACE_Message_Block) (res : SendResult) :
    (mb.length = 0 → noblk_send s mb res = (-1, s)) ∧
    (mb.length ≠ 0 →
      (noblk_send s mb res).2 = s.log (Event.peer_send mb.unread res.n res.errno) ∧
      (0 < res.n → (noblk_send s mb res).1 = res.n) ∧
      (res.n < 0 → res.errno = EWOULDBLOCK → (noblk_send s mb res).1 = 0) ∧
      (res.n < 0 → res.errno ≠ EWOULDBLOCK → (noblk_send s mb res).1 = -1) ∧
      (res.n = 0 → (noblk_send s mb res).1 = -1)) ∧
    ((noblk_send s mb res).1 = 0 ↔ mb.length ≠ 0 ∧ res.n < 0 ∧ res.errno = EWOULDBLOCK) := by
  refine ⟨?_, ?_, ?_⟩
  · intro h
    simp [noblk_send, h]
  · intro hl
    refine ⟨?_, ?_, ?_, ?_, ?_⟩
    · by_cases h1 : 0 < res.n
      · rw [noblk_send_accept s mb res hl h1]; rfl
      · by_cases h2 : res.n < 0 ∧ res.errno = EWOULDBLOCK
        · rw [noblk_send_wouldblock s mb res hl h2.1 h2.2]; rfl
        · have hf : res.fatal := by
            unfold SendResult.fatal
            by_cases h3 : res.n = 0
            · exact Or.inr h3
            · refine Or.inl ⟨by omega, fun he => h2 ⟨by omega, he⟩⟩
          rw [noblk_send_fatal s mb res hl hf]; rfl
    · intro h; rw [noblk_send_accept s mb res hl h]
    · intro h he; rw [noblk_send_wouldblock s mb res hl h he]
    · intro h he; rw [noblk_send_fatal s mb res hl (Or.inl ⟨h, he⟩)]
    · intro h; rw [noblk_send_fatal s mb res hl (Or.inr h)]
  · constructor
    · intro h
      by_cases hl : mb.length = 0
      · simp [noblk_send, hl] at h
      · refine ⟨hl, ?_⟩
        by_cases h1 : 0 < res.n
        · rw [noblk_send_accept s mb res hl h1] at h
          simp only at h; omega
        · by_cases h2 : res.n < 0 ∧ res.errno = EWOULDBLOCK
          · exact h2
          · have hf : res.fatal := by
              unfold SendResult.fatal
              by_cases h3 : res.n = 0
              · exact Or.inr h3
              · refine Or.inl ⟨by omega, fun he => h2 ⟨by omega, he⟩⟩
            rw [noblk_send_fatal s mb res hl hf] at h
            simp at h
    · rintro ⟨hl, h1, h2⟩
      rw [noblk_send_wouldblock s mb res hl h1 h2]

/-- Witness of C11 on a fragment with two unsent bytes: one byte accepted,
would-block, a zero-byte result, a fatal errno, and an empty fragment. -/
theorem noblk_send_spec_witness :
    (noblk_send sample { base := [1, 2, 3], rd_ptr_ := 1, wr_ptr_ := 3 } (accepted 1)).1 = 1 ∧
    (noblk_send sample { base := [1, 2, 3], rd_ptr_ := 1, wr_ptr_ := 3 } wouldBlock).1 = 0 ∧
    (noblk_send sample { base := [1, 2, 3], rd_ptr_ := 1, wr_ptr_ := 3 } (accepted 0)).1 = -1 ∧
    (noblk_send sample { base := [1, 2, 3], rd_ptr_ := 1, wr_ptr_ := 3 } ⟨-1, 104⟩).1 = -1 ∧
    noblk_send sample { base := [1, 2, 3], rd_ptr_ := 3, wr_ptr_ := 3 } (accepted 1) =
      (-1, sample) :=
  ⟨((noblk_send_spec sample ⟨[1, 2, 3], 1, 3⟩ (accepted 1)).2.1 (by decide)).2.1 (by decide),
   ((noblk_send_spec sample ⟨[1, 2, 3], 1, 3⟩ wouldBlock).2.1 (by decide)).2.2.1
     (by decide) (by decide),
   ((noblk_send_spec sample ⟨[1, 2, 3], 1, 3⟩ (accepted 0)).2.1 (by decide)).2.2.2.2
     (by decide),
   ((noblk_send_spec sample ⟨[1, 2, 3], 1, 3⟩ ⟨-1, 104⟩).2.1 (by decide)).2.2.2.1
     (by decide) (by decide),
   (noblk_send_spec sample ⟨[1, 2, 3], 3, 3⟩ (accepted 1)).1 (by decide)⟩

/-- C12: assuming the queue insertion and the reactor registration succeed,
`send` returns false if and only if the buffer is not null, the queue was
empty, `len > 0` and the inline write reported a fatal error (a negative result
other than would-block, or a zero-byte result); in that case the queue stays
empty, write interest is as before and the only external call is the inline
write.  When the inline write accepts all `len` bytes, `send` returns true
with the queue still empty, write interest as before and no other external
call. -/
theorem send_failure (s : BufferedSocket) (buf : Option (List Byte)) (len : Nat)
    (env : SendEnv) (hsz : len < SIZE_MOD)
    (henq : env.enqueue_tail ≠ -1) (hwk : env.schedule_wakeup ≠ -1) :
    ((send s buf len env).1 = false ↔
      buf ≠ none ∧ s.msg_queue = [] ∧ 0 < len ∧ env.res.fatal) ∧
    (∀ b, buf = some b → s.msg_queue = [] → 0 < len → env.res.fatal →
      (send s buf len env).2.msg_queue = [] ∧
      (send s buf len env).2.WRITE_MASK = s.WRITE_MASK ∧
      (send s buf len env).2.trace =
        s.trace ++ [Event.peer_send (b.take len) env.res.n env.res.errno]) ∧
    (∀ b, buf = some b → s.msg_queue = [] → 0 < len → env.res.n = (len : Int) →
      (send s buf len env).1 = true ∧
      (send s buf len env).2.msg_queue = [] ∧
      (send s buf len env).2.WRITE_MASK = s.WRITE_MASK ∧
      (send s buf len env).2.trace =
        s.trace ++ [Event.peer_send (b.take len) env.res.n env.res.errno]) := by
  refine ⟨?_, ?_, ?_⟩
  · cases buf with
    | none => simp [send]
    | some b =>
      by_cases h0 : len = 0
      · subst h0
        have : send s (some b) 0 env = (true, s) := rfl
        rw [this]; simp
      · have hlen : 0 < len := by omega
        by_cases hq : s.msg_queue = []
        · by_cases hf : env.res.fatal
          · rw [send_inline_fatal s b len env hq hlen hsz hf]
            simp [hq, hlen, hf]
          · -- not fatal: would-block or a positive count
            have hres : (send s (some b) len env).1 = true := by
              obtain ⟨hl, hat⟩ := send_block_length b len hsz
              unfold send
              simp only [h0, if_false, hq, List.isEmpty_nil, if_true]
              unfold SendResult.fatal at hf
              by_cases h1 : 0 < env.res.n
              · rw [noblk_send_accept _ _ _ (by rw [hl]; exact h0) h1]
                have h2 : ¬ env.res.n < 0 := by omega
                simp only [h2, if_false]
                by_cases h3 : env.res.n = (len : Int)
                · simp only [h3, if_true]
                · simp only [h3, if_false]
                  exact send_enqueue_true _ _ _ henq hwk
              · have h2 : env.res.n < 0 := by
                  by_contra hc
                  exact hf (Or.inr (by omega))
                have h3 : env.res.errno = EWOULDBLOCK := by
                  by_contra hc
                  exact hf (Or.inl ⟨h2, hc⟩)
                rw [noblk_send_wouldblock _ _ _ (by rw [hl]; exact h0) h2 h3]
                have h4 : ¬ ((0 : Int) = (len : Int)) := by omega
                simp only [lt_irrefl, if_false, h4]
                exact send_enqueue_true _ _ _ henq hwk
            rw [hres]; simp [hf]
        · rw [send_backlog_any s b len env hq hlen]
          rw [send_enqueue_true _ _ _ henq hwk]
          simp [hq]
  · intro b hb hq hlen hf
    subst hb
    rw [send_inline_fatal s b len env hq hlen hsz hf]
    simp [log, hq]
  · intro b hb hq hlen hn
    subst hb
    rw [send_inline_full s b len env hq hlen hsz hn]
    simp [log, hq]

/-- Witness of C12 on the sample socket (empty queue): a fatal inline write makes
`send` fail with nothing queued, would-block does not make it fail, and a
full inline write succeeds with nothing queued. -/
theorem send_failure_witness :
    (send sample (some [1, 2]) 2
      { res := ⟨-1, 104⟩, enqueue_tail := 1, schedule_wakeup := 0 }).1 = false ∧
    (send sample (some [1, 2]) 2
      { res := ⟨-1, 104⟩, enqueue_tail := 1, schedule_wakeup := 0 }).2.msg_queue = [] ∧
    (send sample (some [1, 2]) 2
      { res := wouldBlock, enqueue_tail := 1, schedule_wakeup := 0 }).1 ≠ false ∧
    (send sample (some [1, 2]) 2
      { res := accepted 2, enqueue_tail := 1, schedule_wakeup := 0 }).1 = true ∧
    (send sample (some [1, 2]) 2
      { res := accepted 2, enqueue_tail := 1, schedule_wakeup := 0 }).2.msg_queue = [] :=
  ⟨(send_failure sample (some [1, 2]) 2 { res := ⟨-1, 104⟩, enqueue_tail := 1, schedule_wakeup := 0 }
      (by decide) (by decide) (by decide)).1.2 (by decide),
   ((send_failure sample (some [1, 2]) 2
      { res := ⟨-1, 104⟩, enqueue_tail := 1, schedule_wakeup := 0 }
      (by decide) (by decide) (by decide)).2.1 [1, 2] rfl rfl (by decide) (by decide)).1,
   fun h => absurd
     ((send_failure sample (some [1, 2]) 2
        { res := wouldBlock, enqueue_tail := 1, schedule_wakeup := 0 }
        (by decide) (by decide) (by decide)).1.1 h).2.2.2 (by decide),
   ((send_failure sample (some [1, 2]) 2
      { res := accepted 2, enqueue_tail := 1, schedule_wakeup := 0 }
      (by decide) (by decide) (by decide)).2.2 [1, 2] rfl rfl (by decide) rfl).1,
   ((send_failure sample (some [1, 2]) 2
      { res := accepted 2, enqueue_tail := 1, schedule_wakeup := 0 }
      (by decide) (by decide) (by decide)).2.2 [1, 2] rfl rfl (by decide) rfl).2.1⟩

/-- C13: `send` with `len = 0` returns true and leaves the socket exactly as it
was, for every state, buffer pointer and environment: no transport write is
logged, the outbound queue and the write-readiness interest are unchanged,
whether or not the queue is empty. -/
theorem send_zero_length (s : BufferedSocket) (buf : Option (List Byte)) (env : SendEnv) :
    send s buf 0 env = (true, s) ∧
    (send s buf 0 env).2.trace = s.trace ∧
    (send s buf 0 env).2.msg_queue = s.msg_queue ∧
    (send s buf 0 env).2.WRITE_MASK = s.WRITE_MASK := by
  cases buf <;> exact ⟨rfl, rfl, rfl, rfl⟩

/-- Counterexample to C15 as stated: the head fragment has three unsent bytes,
the write accepts two and putting the fragment back reports `-1`:
`handle_output` returns `-1`, not `0`, and the head fragment is gone from the
queue with its last byte unsent. -/
theorem handle_output_requeue_failure_counterexample :
    (ACE_Message_Block.mk [1, 2, 3, 4] 1 4).unread = [2, 3, 4] ∧
    (handle_output
      { ctor with msg_queue := [⟨[1, 2, 3, 4], 1, 4⟩, ⟨[7, 8], 0, 2⟩] }
      { res := accepted 2, dequeue_head := 0, enqueue_head := -1 }).1 = -1 ∧
    (handle_output
      { ctor with msg_queue := [⟨[1, 2, 3, 4], 1, 4⟩, ⟨[7, 8], 0, 2⟩] }
      { res := accepted 2, dequeue_head := 0, enqueue_head := -1 }).2.msg_queue =
      [⟨[7, 8], 0, 2⟩] ∧
    (handle_output
      { ctor with msg_queue := [⟨[1, 2, 3, 4], 1, 4⟩, ⟨[7, 8], 0, 2⟩] }
      { res := accepted 2, dequeue_head := 0, enqueue_head := -1 }).2.wire = [2, 3] := by
  decide

/-- C15 (amended): on a non-empty queue whose head fragment, within its cursors,
has unsent remainder `r`, a `handle_output` call whose write accepts `n` bytes
with `0 <= n < |r|` (`n = 0` being would-block), the queue operations
(`dequeue_head`, `enqueue_head`) succeeding, returns the waiting outcome `0` and leaves the old queue with only the head
fragment's read cursor advanced by `n`: its remainder is `r[n:]`, it is back at
the head, and the number, order and contents of the other fragments are
unchanged; the accepted bytes `r[:n]` went to the wire. -/
theorem handle_output_short_write (s : BufferedSocket) (env : OutputEnv)
    (mb : ACE_Message_Block) (rest : List ACE_Message_Block) (n : Nat)
    (hm : s.msg_queue = mb :: rest) (hc : mb.Cursors) (hn : n < mb.unread.length)
    (hres : (env.res.n < 0 ∧ env.res.errno = EWOULDBLOCK ∧ n = 0) ∨
      (0 < env.res.n ∧ env.res.n = (n : Int)))
    (hd : env.dequeue_head ≠ -1) (hq : env.enqueue_head ≠ -1) :
    (handle_output s env).1 = 0 ∧
    (handle_output s env).2.msg_queue = mb.rd_ptr n :: rest ∧
    (mb.rd_ptr n).unread = mb.unread.drop n ∧
    (mb.rd_ptr n).base = mb.base ∧
    (mb.rd_ptr n).wr_ptr_ = mb.wr_ptr_ ∧
    (handle_output s env).2.msg_queue.length = s.msg_queue.length ∧
    (handle_output s env).2.wire = s.wire ++ mb.unread.take n := by
  rw [hc.length_unread] at hn
  obtain ⟨c1, c2, c3, c4, c5⟩ := hc.rd_ptr_cursors n (Nat.le_of_lt hn)
  rw [handle_output_requeue s env mb rest n hm hd hn hres, if_neg hq]
  refine ⟨rfl, rfl, c4, rfl, rfl, by rw [hm]; rfl, ?_⟩
  show (BufferedSocket.wire _) = _
  rw [wire_with_queue_trace]
  congr 1
  rcases hres with ⟨h1, h2, h3⟩ | ⟨h1, h2⟩
  · have : env.res.n.toNat = 0 := by omega
    simp [Event.sent, this, h3]
  · have : env.res.n.toNat = n := by omega
    simp only [Event.sent, this]

/-- Witness of C15 (amended): two of three unsent bytes of the head fragment are accepted;
the fragment stays at the head with one byte left, the second fragment is
untouched. -/
theorem handle_output_short_write_witness :
    (handle_output
      { ctor with msg_queue := [⟨[1, 2, 3, 4], 1, 4⟩, ⟨[7, 8], 0, 2⟩] }
      { res := accepted 2, dequeue_head := 0, enqueue_head := 0 }).1 = 0 ∧
    (handle_output
      { ctor with msg_queue := [⟨[1, 2, 3, 4], 1, 4⟩, ⟨[7, 8], 0, 2⟩] }
      { res := accepted 2, dequeue_head := 0, enqueue_head := 0 }).2.msg_queue =
      [⟨[1, 2, 3, 4], 3, 4⟩, ⟨[7, 8], 0, 2⟩] :=
  ⟨(handle_output_short_write
      { ctor with msg_queue := [⟨[1, 2, 3, 4], 1, 4⟩, ⟨[7, 8], 0, 2⟩] }
      { res := accepted 2, dequeue_head := 0, enqueue_head := 0 }
      ⟨[1, 2, 3, 4], 1, 4⟩ [⟨[7, 8], 0, 2⟩] 2 rfl (by decide) (by decide)
      (Or.inr ⟨by decide, rfl⟩) (by decide) (by decide)).1,
   (handle_output_short_write
      { ctor with msg_queue := [⟨[1, 2, 3, 4], 1, 4⟩, ⟨[7, 8], 0, 2⟩] }
      { res := accepted 2, dequeue_head := 0, enqueue_head := 0 }
      ⟨[1, 2, 3, 4], 1, 4⟩ [⟨[7, 8], 0, 2⟩] 2 rfl (by decide) (by decide)
      (Or.inr ⟨by decide, rfl⟩) (by decide) (by decide)).2.1⟩

/-- Counterexample to C17 as stated: a fragment with three unsent bytes is
queued; a `handle_output` call whose write hits a fatal error returns `-1` and
leaves the queue empty, no byte of the fragment having been written. -/
theorem fragment_dropped_counterexample :
    (run ctor [Call.send (some [1, 2, 3]) 3
      { res := wouldBlock, enqueue_tail := 1, schedule_wakeup := 0 }]).msg_queue =
      [⟨[1, 2, 3], 0, 3⟩] ∧
    (ACE_Message_Block.mk [1, 2, 3] 0 3).unread = [1, 2, 3] ∧
    (handle_output
      (run ctor [Call.send (some [1, 2, 3]) 3
        { res := wouldBlock, enqueue_tail := 1, schedule_wakeup := 0 }])
      { res := ⟨-1, 104⟩, dequeue_head := 0, enqueue_head := 0 }).1 = -1 ∧
    (handle_output
      (run ctor [Call.send (some [1, 2, 3]) 3
        { res := wouldBlock, enqueue_tail := 1, schedule_wakeup := 0 }])
      { res := ⟨-1, 104⟩, dequeue_head := 0, enqueue_head := 0 }).2.msg_queue = [] ∧
    (handle_output
      (run ctor [Call.send (some [1, 2, 3]) 3
        { res := wouldBlock, enqueue_tail := 1, schedule_wakeup := 0 }])
      { res := ⟨-1, 104⟩, dequeue_head := 0, enqueue_head := 0 }).2.wire = [] := by
  decide

/-- C17 (amended): in every state reachable through `send` and `handle_output`,
the transport never reporting more bytes written than offered, each queued
fragment satisfies `rd_ptr_ <= wr_ptr_ <= size`.  A `handle_output` call that
does not return the close outcome removes the head fragment only when the
write accepted all of its remaining bytes (result `1`), and otherwise puts it
back at the head with its read cursor advanced (result `0`).  A call whose
write hits a fatal transport error returns the close outcome and discards the
head fragment together with its unsent bytes. -/
theorem queued_fragments_spec (cs : List Call) (env : OutputEnv)
    (hb : runBounded ctor cs) :
    (∀ mb ∈ (run ctor cs).msg_queue, mb.rd_ptr_ ≤ mb.wr_ptr_ ∧ mb.wr_ptr_ ≤ mb.size) ∧
    (∀ mb rest, (run ctor cs).msg_queue = mb :: rest → env.res.n ≤ (mb.length : Int) →
      (handle_output (run ctor cs) env).1 ≠ -1 →
      ((handle_output (run ctor cs) env).1 = 1 ∧
          (mb.rd_ptr_ : Int) + env.res.n = (mb.wr_ptr_ : Int) ∧
          (handle_output (run ctor cs) env).2.msg_queue = rest) ∨
        ((handle_output (run ctor cs) env).1 = 0 ∧
          ∃ k : Nat, k < mb.length ∧
            (handle_output (run ctor cs) env).2.msg_queue = mb.rd_ptr k :: rest ∧
            (mb.rd_ptr k).unread = mb.unread.drop k)) ∧
    (∀ mb rest, (run ctor cs).msg_queue = mb :: rest → env.dequeue_head ≠ -1 →
      env.res.fatal →
      (handle_output (run ctor cs) env).1 = -1 ∧
      (handle_output (run ctor cs) env).2.msg_queue = rest ∧
      mb.unread ≠ []) := by
  have hlive := run_live cs ctor (by intro mb hmb; cases hmb) hb
  refine ⟨fun mb hmb => ⟨(hlive mb hmb).1.1, (hlive mb hmb).1.2.1⟩, ?_, ?_⟩
  · intro mb rest hm hbound hne
    have hmb : mb.Live := hlive mb (by rw [hm]; exact List.mem_cons_self _ _)
    rcases handle_output_cases _ env mb rest hm hmb.2 hbound with h | h | ⟨hn, h⟩ | ⟨k, hk, _, h⟩
    · rw [h] at hne; exact absurd rfl hne
    · rw [h] at hne; exact absurd rfl hne
    · left
      rw [h]
      refine ⟨rfl, ?_, rfl⟩
      have := hmb.1.length_eq_cursors
      have h1 := hmb.1.1
      omega
    · right
      rw [h]
      obtain ⟨c1, c2, c3, c4, c5⟩ := hmb.1.rd_ptr_cursors k (Nat.le_of_lt hk)
      exact ⟨rfl, k, hk, rfl, c4⟩
  · intro mb rest hm hd hf
    have hmb : mb.Live := hlive mb (by rw [hm]; exact List.mem_cons_self _ _)
    rw [handle_output_fatal _ env mb rest hm hd hmb.2 hf]
    refine ⟨rfl, rfl, ?_⟩
    intro h
    have := hmb.1.length_unread
    rw [h] at this
    exact hmb.2 this.symm

/-- Witness of C17 (amended) after the run that queues `1, 2, 3`: the queued
fragment is within its cursors; a write accepting all three bytes removes it
with result `1`; a fatal write returns `-1` and discards it. -/
theorem queued_fragments_spec_witness :
    ((ACE_Message_Block.mk [1, 2, 3] 0 3).rd_ptr_ ≤ (ACE_Message_Block.mk [1, 2, 3] 0 3).wr_ptr_ ∧
      (ACE_Message_Block.mk [1, 2, 3] 0 3).wr_ptr_ ≤ (ACE_Message_Block.mk [1, 2, 3] 0 3).size) ∧
    (handle_output (run ctor queuedRun)
      { res := accepted 3, dequeue_head := 0, enqueue_head := 0 }).1 = 1 ∧
    (handle_output (run ctor queuedRun)
      { res := ⟨-1, 104⟩, dequeue_head := 0, enqueue_head := 0 }).1 = -1 ∧
    (handle_output (run ctor queuedRun)
      { res := ⟨-1, 104⟩, dequeue_head := 0, enqueue_head := 0 }).2.msg_queue = [] :=
  ⟨(queued_fragments_spec queuedRun { res := accepted 3, dequeue_head := 0, enqueue_head := 0 }
      (by decide)).1 ⟨[1, 2, 3], 0, 3⟩ (by decide),
   ((queued_fragments_spec queuedRun { res := accepted 3, dequeue_head := 0, enqueue_head := 0 }
      (by decide)).2.1 ⟨[1, 2, 3], 0, 3⟩ [] (by decide) (by decide) (by decide)).elim
      (fun h => h.1) (fun h => absurd h.1 (by decide)),
   ((queued_fragments_spec queuedRun { res := ⟨-1, 104⟩, dequeue_head := 0, enqueue_head := 0 }
      (by decide)).2.2 ⟨[1, 2, 3], 0, 3⟩ [] (by decide) (by decide) (by decide)).1,
   ((queued_fragments_spec queuedRun { res := ⟨-1, 104⟩, dequeue_head := 0, enqueue_head := 0 }
      (by decide)).2.2 ⟨[1, 2, 3], 0, 3⟩ [] (by decide) (by decide) (by decide)).2.1⟩

/-- Counterexample to C18 as stated: a queue holds three unsent bytes and the
write accepts one.  If putting the fragment back reports `-1`, `handle_output`
returns the close outcome and the unsent total falls by three, not one; if
taking the head off the queue reports `-1`, `handle_output` returns the close
outcome, writes nothing and the unsent total stays three. -/
theorem drain_queue_failure_counterexample :
    (run ctor queuedRun).pending.length = 3 ∧
    (handle_output (run ctor queuedRun)
      { res := accepted 1, dequeue_head := 0, enqueue_head := -1 }).1 = -1 ∧
    (handle_output (run ctor queuedRun)
      { res := accepted 1, dequeue_head := 0, enqueue_head := -1 }).2.pending.length = 0 ∧
    (handle_output (run ctor queuedRun)
      { res := accepted 1, dequeue_head := -1, enqueue_head := 0 }).1 = -1 ∧
    (handle_output (run ctor queuedRun)
      { res := accepted 1, dequeue_head := -1, enqueue_head := 0 }).2.pending.length = 3 ∧
    (handle_output (run ctor queuedRun)
      { res := accepted 1, dequeue_head := -1, enqueue_head := 0 }).2.wire = [] := by
  decide

/-- C18 (amended): in every state reachable through `send` and `handle_output`
(the transport never reporting more bytes written than offered), a
`handle_output` call on a non-empty queue whose write accepts `n > 0` bytes, at
most the head fragment's remainder, the queue operations (`dequeue_head`,
`enqueue_head`) succeeding, takes exactly `n` bytes off the total of unsent
bytes and does not return the close outcome.  Hence, over a transport that
accepts a nonzero chunk on every attempt and with the queue operations
succeeding on every call, a queue holding `B` unsent bytes is empty after any
`B` or more `handle_output` calls, none of which returns the close outcome. -/
theorem drain_progress (cs : List Call) (hb : runBounded ctor cs) :
    (∀ (env : OutputEnv) (mb : ACE_Message_Block) (rest : List ACE_Message_Block),
      (run ctor cs).msg_queue = mb :: rest →
      env.dequeue_head ≠ -1 → env.enqueue_head ≠ -1 →
      0 < env.res.n → env.res.n ≤ (mb.length : Int) →
      (handle_output (run ctor cs) env).2.pending.length + env.res.n.toNat =
        (run ctor cs).pending.length ∧
      (handle_output (run ctor cs) env).1 ≠ -1) ∧
    (∀ envs : List OutputEnv, drainOk (run ctor cs) envs →
      (run ctor cs).pending.length ≤ envs.length →
      (drain (run ctor cs) envs).msg_queue = [] ∧
      ∀ r ∈ drainResults (run ctor cs) envs, r ≠ -1) := by
  have hlive := run_live cs ctor (by intro mb hmb; cases hmb) hb
  refine ⟨?_, ?_⟩
  · intro env mb rest hm hd hq hn hle
    have hmb : mb.Live := hlive mb (by rw [hm]; exact List.mem_cons_self _ _)
    exact handle_output_progress _ env mb rest hm hmb hd hq hn hle
  · intro envs hok hB
    exact drain_live envs _ hlive hok hB

/-- Witness of C18 (amended): a queue holding three unsent bytes is drained by three
one-byte writes with results `0, 0, 1`, and the three bytes are on the wire. -/
theorem drain_progress_witness :
    (run ctor queuedRun).pending.length = 3 ∧
    (drain (run ctor queuedRun) byteDrain).msg_queue = [] ∧
    drainResults (run ctor queuedRun) byteDrain = [0, 0, 1] ∧
    (drain (run ctor queuedRun) byteDrain).wire = [1, 2, 3] :=
  ⟨by decide,
   ((drain_progress queuedRun (by decide)).2 byteDrain (by decide) (by decide)).1,
   by decide, by decide⟩

/-- C19: in every state reachable through `send` and `handle_output`, the
transport never reporting more bytes written than offered, every queued
fragment has a strictly positive unsent remainder.  Hence a `handle_output`
call that dequeues the head passes a non-empty block to `noblk_send` and the
transport write is made, and a `send` of a non-empty payload on an empty queue
passes a block of `len > 0` bytes and the transport write is made: the
empty-block branch of `noblk_send`, which makes no write, is never taken. -/
theorem queued_fragments_nonempty (cs : List Call) (hb : runBounded ctor cs) :
    (∀ mb ∈ (run ctor cs).msg_queue, 0 < mb.unread.length ∧ mb.length ≠ 0) ∧
    (∀ (env : OutputEnv) (mb : ACE_Message_Block) (rest : List ACE_Message_Block),
      (run ctor cs).msg_queue = mb :: rest → env.dequeue_head ≠ -1 →
      mb.length ≠ 0 ∧
      (handle_output (run ctor cs) env).2.trace =
        (run ctor cs).trace ++ [Event.peer_send mb.unread env.res.n env.res.errno]) ∧
    (∀ (b : List Byte) (len : Nat) (env : SendEnv),
      (run ctor cs).msg_queue = [] → 0 < len → len < SIZE_MOD →
      (ACE_Message_Block.wr_ptr { base := b.take len, rd_ptr_ := 0, wr_ptr_ := 0 } len).length
        ≠ 0 ∧
      ∃ tl, (send (run ctor cs) (some b) len env).2.trace =
        (run ctor cs).trace ++ Event.peer_send (b.take len) env.res.n env.res.errno :: tl) := by
  have hlive := run_live cs ctor (by intro mb hmb; cases hmb) hb
  refine ⟨?_, ?_, ?_⟩
  · intro mb hmb
    have h := hlive mb hmb
    refine ⟨?_, h.2⟩
    rw [h.1.length_unread]
    exact Nat.pos_of_ne_zero h.2
  · intro env mb rest hm hd
    have hmb : mb.Live := hlive mb (by rw [hm]; exact List.mem_cons_self _ _)
    exact ⟨hmb.2, handle_output_trace _ env mb rest hm hd hmb.2⟩
  · intro b len env hq hlen hsz
    refine ⟨?_, send_trace _ b len env hq hlen hsz⟩
    rw [(send_block_length b len hsz).1]
    omega

/-- Witness of C19 after the run that queues `1, 2, 3`: the queued fragment has
three unsent bytes, and the next `handle_output` call makes the transport
write of those bytes. -/
theorem queued_fragments_nonempty_witness :
    (0 < (ACE_Message_Block.mk [1, 2, 3] 0 3).unread.length ∧
      (ACE_Message_Block.mk [1, 2, 3] 0 3).length ≠ 0) ∧
    (handle_output (run ctor queuedRun)
      { res := accepted 1, dequeue_head := 0, enqueue_head := 0 }).2.trace =
      (run ctor queuedRun).trace ++
        [Event.peer_send (ACE_Message_Block.mk [1, 2, 3] 0 3).unread 1 0] :=
  ⟨(queued_fragments_nonempty queuedRun (by decide)).1 ⟨[1, 2, 3], 0, 3⟩ (by decide),
   ((queued_fragments_nonempty queuedRun (by decide)).2.1
      { res := accepted 1, dequeue_head := 0, enqueue_head := 0 }
      ⟨[1, 2, 3], 0, 3⟩ [] (by decide) (by decide)).2⟩

/-! ## Opening the connection -/

/-- Closed form of `handle_input` when the read delivers no data. -/
theorem handle_input_nonpos (s : BufferedSocket) (env : RecvEnv)
    (OnRead : BufferedSocket → BufferedSocket) (h : env.n ≤ 0) :
    handle_input s env OnRead =
      (if env.n < 0 ∧ env.errno = EWOULDBLOCK then 0 else -1,
        s.log (Event.peer_recv (to_size_t (to_ssize_t s.input_buffer_.space)) env.n env.errno)) := by
  unfold handle_input
  by_cases h0 : env.n < 0
  · by_cases h1 : env.errno = EWOULDBLOCK
    · simp [h0, h1]
    · simp [h0, h1]
  · have h1 : env.n = 0 := by omega
    simp [h1]

/-- Closed form of `handle_input` when the read delivers data. -/
theorem handle_input_pos (s : BufferedSocket) (env : RecvEnv)
    (OnRead : BufferedSocket → BufferedSocket) (h : 0 < env.n) :
    handle_input s env OnRead =
      (if env.n = to_ssize_t s.input_buffer_.space then 1 else 0,
        { OnRead (hookEntry s env) with
          input_buffer_ := (OnRead (hookEntry s env)).input_buffer_.crunch }) := by
  unfold handle_input hookEntry
  have h1 : ¬ env.n < 0 := by omega
  have h2 : ¬ env.n = 0 := by omega
  simp only [h1, h2, if_false]

theorem recv_skip_WF (t : BufferedSocket) (len : Nat) (hwf : t.input_buffer_.WF)
    (hlen : len ≤ t.recv_len) :
    (t.recv_skip len).input_buffer_.WF ∧
    (t.recv_skip len).input_buffer_.size = t.input_buffer_.size :=
  ⟨(hwf.rd_ptr_spec len hlen).1, rfl⟩

theorem recv_WF (t : BufferedSocket) (buf : List Byte) (len : Nat)
    (hwf : t.input_buffer_.WF) :
    (t.recv buf len).2.2.input_buffer_.WF ∧
    (t.recv buf len).2.2.input_buffer_.size = t.input_buffer_.size := by
  unfold recv recv_soft
  by_cases h : t.input_buffer_.length < len
  · simp only [h, if_true]
    exact ⟨hwf, rfl⟩
  · simp only [h, if_false, if_true]
    exact recv_skip_WF t len hwf (by unfold recv_len; omega)

theorem recv_soft_WF (t : BufferedSocket) (buf : List Byte) (len : Nat)
    (hwf : t.input_buffer_.WF) :
    (t.recv_soft buf len).2.2.input_buffer_.WF ∧
    (t.recv_soft buf len).2.2.input_buffer_.size = t.input_buffer_.size := by
  unfold recv_soft
  by_cases h : t.input_buffer_.length < len
  · rw [if_pos h]; exact ⟨hwf, rfl⟩
  · rw [if_neg h]; exact ⟨hwf, rfl⟩

/-- A hook that only makes in-bounds receive calls keeps the cursor invariant
and the capacity. -/
theorem runHook_WF (cs : List HookCall) (t : BufferedSocket) (hwf : t.input_buffer_.WF)
    (hok : hookOk t cs) :
    (runHook cs t).input_buffer_.WF ∧
    (runHook cs t).input_buffer_.size = t.input_buffer_.size := by
  induction cs generalizing t with
  | nil => exact ⟨hwf, rfl⟩
  | cons c cs ih =>
    obtain ⟨hc, hrest⟩ := hok
    have hstep : (c.run t).input_buffer_.WF ∧
        (c.run t).input_buffer_.size = t.input_buffer_.size := by
      cases c with
      | recv_soft buf len => exact recv_soft_WF t buf len hwf
      | recv buf len => exact recv_WF t buf len hwf
      | recv_skip len => exact recv_skip_WF t len hwf hc
    obtain ⟨i1, i2⟩ := ih (c.run t) hstep.1 hrest
    exact ⟨i1, i2.trans hstep.2⟩

/-- C16: the cursor invariant `0 <= rd_ptr_ <= wr_ptr_ <= capacity` holds for the
constructed socket (capacity 4096, both cursors 0) and is preserved, with the
capacity, by `recv_soft` and `recv` for every length, by `recv_skip(len)` when
`len <= recv_len()`, and by `handle_input` for every transport result within
the requested free space and every hook made of `recv_soft`, `recv` and
in-bounds `recv_skip` calls. -/
theorem cursor_invariant :
    (ctor.input_buffer_.WF ∧ ctor.input_buffer_.size = 4096 ∧
      ctor.input_buffer_.rd_ptr_ = 0 ∧ ctor.input_buffer_.wr_ptr_ = 0) ∧
    (∀ (s : BufferedSocket) (buf : List Byte) (len : Nat), s.input_buffer_.WF →
      (s.recv_soft buf len).2.2.input_buffer_.WF ∧
      (s.recv_soft buf len).2.2.input_buffer_.size = s.input_buffer_.size) ∧
    (∀ (s : BufferedSocket) (buf : List Byte) (len : Nat), s.input_buffer_.WF →
      (s.recv buf len).2.2.input_buffer_.WF ∧
      (s.recv buf len).2.2.input_buffer_.size = s.input_buffer_.size) ∧
    (∀ (s : BufferedSocket) (len : Nat), s.input_buffer_.WF → len ≤ s.recv_len →
      (s.recv_skip len).input_buffer_.WF ∧
      (s.recv_skip len).input_buffer_.size = s.input_buffer_.size) ∧
    (∀ (s : BufferedSocket) (env : RecvEnv) (cs : List HookCall), s.input_buffer_.WF →
      env.n ≤ (s.input_buffer_.space : Int) →
      (0 < env.n → (env.data.length : Int) = env.n) →
      hookOk (hookEntry s env) cs →
      (handle_input s env (runHook cs)).2.input_buffer_.WF ∧
      (handle_input s env (runHook cs)).2.input_buffer_.size = s.input_buffer_.size) := by
  refine ⟨?_, recv_soft_WF, recv_WF, recv_skip_WF, ?_⟩
  · obtain ⟨cwf, csz, csp, cl⟩ := ofSize_facts 4096 (by decide)
    exact ⟨cwf, csz, rfl, rfl⟩
  · intro s env cs hwf hfit hdata hok
    by_cases hpos : 0 < env.n
    · rw [handle_input_pos s env _ hpos]
      have hd := hdata hpos
      have hlim : s.input_buffer_.space < SSIZE_LIMIT := by
        have h1 := hwf.space_eq
        have h2 := hwf.2.2
        omega
      have hts : to_size_t env.n = env.data.length := by
        rw [to_size_t_of_nonneg (by omega) (by simp only [SIZE_MOD, SSIZE_LIMIT] at *; omega)]
        omega
      obtain ⟨fwf, fsz, frd, fwr, fun_⟩ := hwf.fill_spec env.data (by omega)
      have hentry : (hookEntry s env).input_buffer_ =
          (s.input_buffer_.fill env.data env.data.length).wr_ptr env.data.length := by
        unfold hookEntry
        simp only [hts, log]
      have hewf : (hookEntry s env).input_buffer_.WF := by rw [hentry]; exact fwf
      obtain ⟨rwf, rsz⟩ := runHook_WF cs (hookEntry s env) hewf hok
      obtain ⟨cwf, crd, csz, cl, cun⟩ := rwf.crunch_spec
      refine ⟨cwf, ?_⟩
      show (runHook cs (hookEntry s env)).input_buffer_.crunch.size = _
      rw [csz, rsz, hentry, fsz]
    · rw [handle_input_nonpos s env _ (by omega)]
      exact ⟨hwf, rfl⟩

/-- Witness of C16 on the sample socket: a two-byte read followed by the sample
hook keeps the invariant and leaves the two new bytes unread. -/
theorem cursor_invariant_witness :
    hookOk (hookEntry sample ⟨2, 0, [8, 9]⟩) sampleHook ∧
    (handle_input sample ⟨2, 0, [8, 9]⟩ (runHook sampleHook)).2.input_buffer_.WF ∧
    (handle_input sample ⟨2, 0, [8, 9]⟩ (runHook sampleHook)).2.input_buffer_.unread = [8, 9] ∧
    (sample.recv_skip 2).input_buffer_.WF :=
  ⟨by decide,
   (cursor_invariant.2.2.2.2 sample ⟨2, 0, [8, 9]⟩ sampleHook (by decide) (by decide)
      (fun _ => rfl) (by decide)).1,
   by decide,
   (cursor_invariant.2.2.2.1 sample 2 (by decide) (by decide)).1⟩

/-- C20: when the receive buffer has no free space at entry, `handle_input`
issues a read requesting 0 bytes; for every result the transport can give to
it (`n <= 0`) the hook is not invoked and the socket is the old one with that
read logged, the buffer unchanged; the outcome is keep-waiting (`0`, exactly
on would-block) or close (`-1`), a zero-byte result giving close, and is never
invoke-again. -/
theorem handle_input_full_buffer (s : BufferedSocket) (env : RecvEnv)
    (OnRead : BufferedSocket → BufferedSocket)
    (hfull : s.input_buffer_.space = 0) (hn : env.n ≤ 0) :
    (handle_input s env OnRead).2 =
      { s with trace := s.trace ++ [Event.peer_recv 0 env.n env.errno] } ∧
    (handle_input s env OnRead).2.input_buffer_ = s.input_buffer_ ∧
    ((handle_input s env OnRead).1 = 0 ∨ (handle_input s env OnRead).1 = -1) ∧
    (handle_input s env OnRead).1 ≠ 1 ∧
    (env.n = 0 → (handle_input s env OnRead).1 = -1) ∧
    ((handle_input s env OnRead).1 = 0 ↔ env.n < 0 ∧ env.errno = EWOULDBLOCK) := by
  rw [handle_input_nonpos s env OnRead hn, hfull]
  have h0 : to_size_t (to_ssize_t 0) = 0 := by decide
  rw [h0]
  by_cases hc : env.n < 0 ∧ env.errno = EWOULDBLOCK
  · rw [if_pos hc]
    refine ⟨rfl, rfl, Or.inl rfl, show ((0 : Int) ≠ 1) by decide, ?_, ⟨fun _ => hc, fun _ => rfl⟩⟩
    intro h; omega
  · rw [if_neg hc]
    refine ⟨rfl, rfl, Or.inr rfl, show ((-1 : Int) ≠ 1) by decide, fun _ => rfl, ?_⟩
    constructor
    · intro h; exact absurd h (show ¬ ((-1 : Int) = 0) by decide)
    · intro h; exact absurd h hc

/-- Witness of C20 on a full 4-byte buffer: a zero-byte result closes,
would-block keeps waiting, and the buffer is unchanged. -/
theorem handle_input_full_buffer_witness :
    (handle_input fullSample ⟨0, 0, []⟩ (runHook sampleHook)).1 = -1 ∧
    (handle_input fullSample ⟨-1, EWOULDBLOCK, []⟩ (runHook sampleHook)).1 = 0 ∧
    (handle_input fullSample ⟨0, 0, []⟩ (runHook sampleHook)).2.input_buffer_ =
      fullSample.input_buffer_ :=
  ⟨(handle_input_full_buffer fullSample ⟨0, 0, []⟩ _ (by decide) (by decide)).2.2.2.2.1 rfl,
   (handle_input_full_buffer fullSample ⟨-1, EWOULDBLOCK, []⟩ _ (by decide)
      (by decide)).2.2.2.2.2.2 ⟨by decide, rfl⟩,
   (handle_input_full_buffer fullSample ⟨0, 0, []⟩ _ (by decide) (by decide)).2.1⟩

end BufferedSocket

end BufferedSocketModel
